import Mathlib

/-!
Shallow embedding of the Match Rating & Consistency Engine of the
`core-api-backend` repository (sources: `app/services/match_service.py`,
`app/models/db_models.py`).  Pure data is translated to Lean structures,
the MongoDB document stores to association lists, the TrueSkill rating
environment to an opaque function parameter, and every service operation
to a state-passing function returning `Except` together with the
resulting database state.  Floating-point skill values are modelled as
exact fractions (integer numerator over positive integer denominator,
with kernel-computable arithmetic); wall-clock timestamps (`created_at`,
`lastModified`) are omitted or passed in as an abstract `now : Nat`
since no verified property mentions them.
-/

namespace CoreApiBackend

/-- An exact rational value (numerator over denominator).  Every value the
model builds keeps the denominator positive; arithmetic is plain integer
arithmetic so that concrete instances evaluate inside the kernel. -/
structure Frac where
  num : Int
  den : Int
deriving DecidableEq

def Frac.ofInt (n : Int) : Frac := { num := n, den := 1 }

def Frac.sub (a b : Frac) : Frac :=
  { num := a.num * b.den - b.num * a.den, den := a.den * b.den }

def Frac.add (a b : Frac) : Frac :=
  { num := a.num * b.den + b.num * a.den, den := a.den * b.den }

/-- Strict order by cross multiplication (valid for positive
denominators). -/
def Frac.blt (a b : Frac) : Bool := a.num * b.den < b.num * a.den

/-- The floor of the represented rational (`Int.fdiv` rounds toward
negative infinity). -/
def Frac.floor (a : Frac) : Int := a.num.fdiv a.den

def fracHalf : Frac := { num := 1, den := 2 }

/-- Python's built-in `round` (round half to even), as used by
`update_player_stats` for the delta computation. -/
def pyRound (q : Frac) : Int :=
  let f := q.floor
  let r := q.sub (Frac.ofInt f)
  if r.blt fracHalf then f
  else if fracHalf.blt r then f + 1
  else if f % 2 = 0 then f else f + 1

/-- Configured constants from `app.config.settings` used by the service
(the config module is not under `src/`; the engine only reads these three
values, so they are modelled as an explicit record threaded through). -/
structure Settings where
  ts_mu : Frac
  ts_sigma : Frac
  min_points_for_subs : Int
deriving DecidableEq

/-- `PlayerModel` from `app/models/db_models.py`.  Delta fields are stored
as integers: every value the service assigns to them is an integer
(`round(...)`, `max`/`min` of integers, or the 0 default). -/
structure PlayerModel where
  steam_id : Option String := none
  user_name : Option String := none
  civ : String
  team : Int
  leader : Option String := none
  player_alive : Option Bool := none
  discord_id : Option String := none
  placement : Option Int := none
  quit : Bool := false
  delta : Int := 0
  season_delta : Option Int := none
  combined_delta : Option Int := none
  is_sub : Bool := false
  subbed_out : Bool := false
deriving DecidableEq

/-- `StatModel` from `app/models/db_models.py`.  The `id` field (an int in
the source, with `0` as the sentinel for unbound players) is modelled as
the optional discord id string it is constructed from; `lastModified` is
omitted.  `civs` is the civilization-label usage map as an association
list. -/
structure StatModel where
  index : Nat
  id : Option String
  mu : Frac
  sigma : Frac
  games : Nat
  wins : Nat
  first : Nat
  subbedIn : Nat
  subbedOut : Nat
  civs : List (String × Nat)
deriving DecidableEq

/-- `MatchModel` from `app/models/db_models.py` (the `created_at`
timestamp is omitted; `approved_at` is an abstract tick). -/
structure MatchModel where
  game : String
  turn : Int
  age : Option String := none
  map_type : String
  game_mode : String
  is_cloud : Bool
  players : List PlayerModel
  parser_version : String
  discord_messages_id_list : List String
  approved_at : Option Nat := none
  approver_discord_id : Option String := none
  flagged : Bool := false
  flagged_by : Option String := none
  save_file_hash : String
  reporter_discord_id : String
deriving DecidableEq

/-- The three per-player delta attributes selected by the
`delta_value_name` string argument of `update_player_stats`. -/
inductive DeltaField where
  | delta
  | season_delta
  | combined_delta
deriving DecidableEq

/-- `p.__setattr__(delta_value_name, v)`. -/
def setDeltaField : DeltaField → PlayerModel → Int → PlayerModel
  | .delta, p, v => { p with delta := v }
  | .season_delta, p, v => { p with season_delta := some v }
  | .combined_delta, p, v => { p with combined_delta := some v }

/-- `getattr(p, delta_value_name)` (read only after the same call has set
the attribute, so the `Option` default is never observable). -/
def getDeltaField : DeltaField → PlayerModel → Int
  | .delta, p => p.delta
  | .season_delta, p => p.season_delta.getD 0
  | .combined_delta, p => p.combined_delta.getD 0

/-- A TrueSkill environment (`make_ts_env()` composed with `env.rate`):
given the per-team lists of (mu, sigma) ratings and the per-team ranks it
returns the posterior (mu, sigma) lists.  The statistical algorithm lives
in the out-of-scope `trueskill` library, so it is an opaque parameter. -/
abbrev TSEnv := List (List (Frac × Frac)) → List Int → List (List (Frac × Frac))

def dfltStat : StatModel :=
  { index := 0, id := none, mu := Frac.ofInt 0, sigma := Frac.ofInt 0
  , games := 0, wins := 0, first := 0, subbedIn := 0, subbedOut := 0, civs := [] }

def dfltPlayer : PlayerModel := { civ := "", team := 0 }

/-- Replace the element at an index (a Python `xs[i] = v` assignment);
out-of-range indices leave the list unchanged (never reached guarded). -/
def setIdx {α : Type} : List α → Nat → α → List α
  | [], _, _ => []
  | _ :: xs, 0, a => a :: xs
  | x :: xs, n + 1, a => x :: setIdx xs n a

/-- Python `list.insert i a` (clamping at the end, as Python does). -/
def insertAt {α : Type} : List α → Nat → α → List α
  | l, 0, a => a :: l
  | [], _ + 1, a => [a]
  | x :: xs, n + 1, a => x :: insertAt xs n a

/-- Python `list.pop i` restricted to its effect on the list. -/
def removeAt {α : Type} : List α → Nat → List α
  | [], _ => []
  | _ :: xs, 0 => xs
  | x :: xs, n + 1 => x :: removeAt xs n

/-- `for i, x in enumerate(l)` mapped to a result list, starting at `n`. -/
def mapWithIndexFrom {α β : Type} (f : Nat → α → β) : Nat → List α → List β
  | _, [] => []
  | n, x :: xs => f n x :: mapWithIndexFrom f (n + 1) xs

def mapWithIndex {α β : Type} (f : Nat → α → β) (l : List α) : List β :=
  mapWithIndexFrom f 0 l

/-- Append a value under a key of an insertion-ordered multimap, the
behaviour of `defaultdict(list)[k].append(a)`. -/
def addToGroup {α : Type} : List (Int × List α) → Int → α → List (Int × List α)
  | [], k, a => [(k, [a])]
  | (k', xs) :: rest, k, a =>
    if k' = k then (k', xs ++ [a]) :: rest else (k', xs) :: addToGroup rest k a

/-- The team-partitioning loop of `update_player_stats`: one grouping
without substitute-in rows (`teams_wo_subs`) and one without
substituted-out rows (`teams_with_sub_ins`), keyed by team in first-seen
order, each entry carrying the original player index. -/
def partitionGo : Nat → List PlayerModel →
    List (Int × List (Nat × PlayerModel)) × List (Int × List (Nat × PlayerModel)) →
    List (Int × List (Nat × PlayerModel)) × List (Int × List (Nat × PlayerModel))
  | _, [], acc => acc
  | i, p :: ps, (wo, wi) =>
    partitionGo (i + 1) ps
      (if p.is_sub then (wo, addToGroup wi p.team (i, p))
       else if p.subbed_out then (addToGroup wo p.team (i, p), wi)
       else (addToGroup wo p.team (i, p), addToGroup wi p.team (i, p)))

def partitionTeams (ps : List PlayerModel) :
    List (Int × List (Nat × PlayerModel)) × List (Int × List (Nat × PlayerModel)) :=
  partitionGo 0 ps ([], [])

/-- `[[players_ranking[i] for (i, p) in group] for group in groups]`. -/
def teamStates (groups : List (Int × List (Nat × PlayerModel)))
    (ranking : List StatModel) : List (List StatModel) :=
  groups.map fun g => g.2.map fun ip => ranking.getD ip.1 dfltStat

/-- `[group[team][0][1].placement for team in group]` (the rank handed to
`env.rate`; every grouped team is nonempty whenever this is reached). -/
def placementsOf (groups : List (Int × List (Nat × PlayerModel))) : List Int :=
  groups.map fun g => ((g.2.headD (0, dfltPlayer)).2.placement).getD 0

/-- `[[Rating(p.mu, p.sigma) for p in team] for team in states]`. -/
def ratingsOfStates (states : List (List StatModel)) : List (List (Frac × Frac)) :=
  states.map fun team => team.map fun p => (p.mu, p.sigma)

/-- Inner merge loop: write the rated posterior of each slot of one team
back onto `post` at the slot's original player index. When `subsOnly` is
set only substitute-in rows are written (the second source loop);
otherwise every row of the grouping is written (the first source loop,
whose rows are never substitute-ins by construction of the partition). -/
def writeTeam (players : List PlayerModel) (subsOnly : Bool)
    (rated : List (Frac × Frac)) :
    Nat → List StatModel → List StatModel → List StatModel
  | _, [], post => post
  | pi, st :: rest, post =>
    let keep := if subsOnly then (players.getD st.index dfltPlayer).is_sub else true
    let post' :=
      if keep then
        let r := rated.getD pi (st.mu, st.sigma)
        setIdx post st.index { st with mu := r.1, sigma := r.2 }
      else post
    writeTeam players subsOnly rated (pi + 1) rest post'

/-- Outer merge loop over the enumerated team groupings. -/
def writeTeams (players : List PlayerModel) (subsOnly : Bool)
    (rated : List (List (Frac × Frac))) :
    Nat → List (List StatModel) → List StatModel → List StatModel
  | _, [], post => post
  | ti, team :: rest, post =>
    writeTeams players subsOnly rated (ti + 1) rest
      (writeTeam players subsOnly (rated.getD ti []) 0 team post)

/-- The merged posterior skill estimates of `update_player_stats`, one per
original player index: rate both partitions, then write the
without-substitutes posteriors for every non-substitute row and the
with-substitutes posteriors for every substitute-in row. -/
def mergedPost (env : TSEnv) (players : List PlayerModel)
    (ranking : List StatModel) : List StatModel :=
  let wo := (partitionTeams players).1
  let wi := (partitionTeams players).2
  let woStates := teamStates wo ranking
  let wiStates := teamStates wi ranking
  let ratedWo := env (ratingsOfStates woStates) (placementsOf wo)
  let ratedWi := env (ratingsOfStates wiStates) (placementsOf wi)
  let post0 := List.replicate players.length dfltStat
  let post1 := writeTeams players false ratedWo 0 woStates post0
  writeTeams players true ratedWi 0 wiStates post1

/-- `len(set(p.team for p in match.players))`. -/
def numTeams (ps : List PlayerModel) : Nat :=
  ((ps.map fun p => p.team).dedup).length

/-- `MatchService.update_player_stats`: reject single-team matches (the
source returns `(None, None)`), otherwise run the two TrueSkill passes,
merge posteriors, derive the per-player delta (with the substitute floor
and the substituted-out cap) and store the policy-adjusted posterior mean
`prior + delta`. -/
def update_player_stats (s : Settings) (env : TSEnv) (m : MatchModel)
    (players_ranking : List StatModel) (fld : DeltaField) :
    Option (MatchModel × List StatModel) :=
  if numTeams m.players ≤ 1 then none
  else
    let post := mergedPost env m.players players_ranking
    let newPlayers := mapWithIndex (fun i p =>
      let prior := players_ranking.getD i dfltStat
      let d : Int :=
        if p.discord_id.isSome then pyRound ((post.getD i dfltStat).mu.sub prior.mu) else 0
      let nd : Int :=
        if p.is_sub then max s.min_points_for_subs d
        else if p.subbed_out then (if d < 0 then d else 0)
        else d
      setDeltaField fld p nd) m.players
    let newPost := mapWithIndex (fun i st =>
      { st with
        mu := (players_ranking.getD i dfltStat).mu.add
          (Frac.ofInt (getDeltaField fld (newPlayers.getD i dfltPlayer))) }) post
    some ({ m with players := newPlayers }, newPost)

/-- Handle of one aggregate-stats collection: the seasonal/lifetime
database split, the civ6/civ7 database split, and the collection name
composed by `get_stat_table`. -/
structure TableRef where
  seasonal : Bool
  civ6 : Bool
  name : String
deriving DecidableEq

/-- `MatchService.get_stat_table`: route a (cloud, match-type, title,
seasonal, combined) combination to exactly one collection handle. -/
def get_stat_table (is_cloud : Bool) (match_type : String) (civ_version : String)
    (is_seasonal : Bool) (is_combined : Bool) : TableRef :=
  { seasonal := is_seasonal
  , civ6 := civ_version = "civ6"
  , name := (if is_cloud then "pbc_" else "rt_")
            ++ (if is_combined then "combined" else match_type) }

/-- One stored aggregate-stats document (the fields written by
`get_player_stats_db`; `lastModified` omitted). -/
structure StatRow where
  mu : Frac
  sigma : Frac
  games : Nat
  wins : Nat
  first : Nat
  subbedIn : Nat
  subbedOut : Nat
  civs : List (String × Nat)
deriving DecidableEq

/-- The persistent state touched by the service: the pending and
validated match collections (keyed by insertion id), every
aggregate-stats collection (keyed by the player's discord id; the
source's `Int64` coercion of the numeric id string is immaterial to the
verified properties), and the standalone substitute-activity counters. -/
structure DB where
  pending : List (Nat × MatchModel)
  validated : List (Nat × MatchModel)
  stats : List (TableRef × List (String × StatRow))
  subs : List (String × Int)
  nextId : Nat
  nextValidatedId : Nat
deriving DecidableEq

def lookupAssoc {κ α : Type} [DecidableEq κ] : List (κ × α) → κ → Option α
  | [], _ => none
  | (k', a) :: rest, k => if k' = k then some a else lookupAssoc rest k

def setAssoc {κ α : Type} [DecidableEq κ] : List (κ × α) → κ → α → List (κ × α)
  | [], k, a => [(k, a)]
  | (k', a') :: rest, k, a =>
    if k' = k then (k', a) :: rest else (k', a') :: setAssoc rest k a

def lookupRow (db : DB) (t : TableRef) (key : String) : Option StatRow :=
  lookupAssoc ((lookupAssoc db.stats t).getD []) key

/-- `collection.replace_one({_id: key}, row, upsert=True)`. -/
def upsertRow (db : DB) (t : TableRef) (key : String) (row : StatRow) : DB :=
  { db with stats := setAssoc db.stats t (setAssoc ((lookupAssoc db.stats t).getD []) key row) }

/-- `pending_matches.find_one({"_id": oid})`. -/
def findPending (db : DB) (id : Nat) : Option MatchModel :=
  lookupAssoc db.pending id

/-- Overwrite the stored pending document under its key (both the
field-path `$set` updates and `replace_one` resolve to this once the new
document value is known). -/
def setPending (db : DB) (id : Nat) (m : MatchModel) : DB :=
  { db with pending := setAssoc db.pending id m }

/-- The player-directory lookups (`discord_to_steam_id`,
`steam_to_discord_id` read the out-of-scope `server_members.users`
collection); best-effort, a miss leaves the field unbound. -/
structure Directory where
  discord_to_steam : String → Option String
  steam_to_discord : String → Option String

/-- `MatchService.match_id_to_discord`: resolve a discord id for every
player with a truthy steam id other than the `'-1'` sentinel. -/
def match_id_to_discord (dir : Directory) (m : MatchModel) : MatchModel :=
  { m with players := m.players.map fun p =>
      match p.steam_id with
      | some sid =>
        if sid ≠ "" ∧ sid ≠ "-1" then { p with discord_id := dir.steam_to_discord sid }
        else p
      | none => p }

/-- `MatchService.get_player_ranking`: the stored aggregate row of a bound
player, or the configured default prior. -/
def get_player_ranking (s : Settings) (db : DB) (m : MatchModel)
    (discord_id : Option String) (player_index : Nat)
    (is_seasonal : Bool) (is_combined : Bool) : StatModel :=
  match discord_id with
  | none =>
    { index := player_index, id := none, mu := s.ts_mu, sigma := s.ts_sigma
    , games := 0, wins := 0, first := 0, subbedIn := 0, subbedOut := 0, civs := [] }
  | some did =>
    let t := get_stat_table m.is_cloud m.game_mode m.game is_seasonal is_combined
    match lookupRow db t did with
    | some row =>
      { index := player_index, id := some did, mu := row.mu, sigma := row.sigma
      , games := row.games, wins := row.wins, first := row.first
      , subbedIn := row.subbedIn, subbedOut := row.subbedOut, civs := row.civs }
    | none =>
      { index := player_index, id := some did, mu := s.ts_mu, sigma := s.ts_sigma
      , games := 0, wins := 0, first := 0, subbedIn := 0, subbedOut := 0, civs := [] }

/-- `MatchService.get_players_ranking`. -/
def get_players_ranking (s : Settings) (db : DB) (m : MatchModel)
    (is_seasonal : Bool) (is_combined : Bool) : List StatModel :=
  mapWithIndex (fun i p => get_player_ranking s db m p.discord_id i is_seasonal is_combined)
    m.players

/-- The error taxonomy of the service layer.  `crash` stands for the
uncaught Python exceptions (`AttributeError` from the `None` match
returned on single-team rating updates, `ValueError`/`IndexError` from
`int()`/list indexing) that abort a call before it persists anything. -/
inductive ServiceError where
  | invalidID
  | notFound
  | matchService (msg : String)
  | parseError (msg : String)
  | crash
deriving DecidableEq

/-- One structured player record as produced by the out-of-scope save
parsers.  Modelled from the spec: the Save Parser (§6) returns structured
match fields; `MatchModel(**parsed)` validates them into `PlayerModel`
rows, whose quit/delta/substitution fields take their defaults. -/
structure ParsedPlayer where
  steam_id : Option String := none
  user_name : Option String := none
  civ : String
  team : Int
  leader : Option String := none
  player_alive : Option Bool := none
  placement : Option Int := none
deriving DecidableEq

def ParsedPlayer.toPlayer (p : ParsedPlayer) : PlayerModel :=
  { steam_id := p.steam_id, user_name := p.user_name, civ := p.civ
  , team := p.team, leader := p.leader, player_alive := p.player_alive
  , placement := p.placement }

/-- The structured match fields produced by the out-of-scope save parser.
Modelled from the spec (§6 Save Parser); only the fields `create_from_save`
reads are carried. -/
structure ParsedSave where
  game : String
  turn : Int
  age : Option String := none
  map_type : String
  game_mode : String
  players : List ParsedPlayer
  parser_version : String
deriving DecidableEq

/-- The content fingerprint of `create_from_save`: the SHA-256 of
`','.join([game] + [map_type] + [civ + leader for each player])`.  The
hash itself is modelled by its deterministic, content-determined
preimage string (the claims use only that the fingerprint is a function
of exactly these fields). -/
def save_file_hash (parsed : ParsedSave) : String :=
  String.intercalate ","
    ([parsed.game] ++ [parsed.map_type]
      ++ parsed.players.map fun p => p.civ ++ p.leader.getD "")

/-- `pending_matches.find_one({"save_file_hash": h})`. -/
def findByHash (db : DB) (h : String) : Option (Nat × MatchModel) :=
  db.pending.find? fun im => im.2.save_file_hash = h

/-- The `MatchModel(**parsed)` document built by `create_from_save`
before identity resolution. -/
def build_match (parsed : ParsedSave) (reporter : String) (is_cloud : Bool)
    (msgId : String) (h : String) : MatchModel :=
  { game := parsed.game, turn := parsed.turn, age := parsed.age
  , map_type := parsed.map_type, game_mode := parsed.game_mode
  , is_cloud := is_cloud, players := parsed.players.map ParsedPlayer.toPlayer
  , parser_version := parsed.parser_version
  , discord_messages_id_list := [msgId]
  , save_file_hash := h, reporter_discord_id := reporter }

/-- The value returned by `create_from_save`. -/
structure CreateOut where
  match_id : Nat
  repeated : Bool
  body : MatchModel
deriving DecidableEq

/-- `MatchService.create_from_save` (after the out-of-scope byte-level
parse): fingerprint the content, return an existing pending match with
that fingerprint annotated as a repeat, otherwise resolve identities,
run the rating preview across the three stat spaces and insert. -/
def create_from_save (s : Settings) (env : TSEnv) (dir : Directory) (db : DB)
    (parsed : ParsedSave) (reporter : String) (is_cloud : Bool) (msgId : String) :
    Except ServiceError CreateOut × DB :=
  let h := save_file_hash parsed
  match findByHash db h with
  | some im => (.ok { match_id := im.1, repeated := true, body := im.2 }, db)
  | none =>
    let m1 := match_id_to_discord dir (build_match parsed reporter is_cloud msgId h)
    let r := get_players_ranking s db m1 false false
    let rs := get_players_ranking s db m1 true false
    let rc := get_players_ranking s db m1 false true
    match update_player_stats s env m1 r .delta with
    | none => (.error .crash, db)
    | some (m2, _) =>
      match update_player_stats s env m2 rs .season_delta with
      | none => (.error .crash, db)
      | some (m3, _) =>
        match update_player_stats s env m3 rc .combined_delta with
        | none => (.error .crash, db)
        | some (m4, _) =>
          (.ok { match_id := db.nextId, repeated := false, body := m4 }
          , { db with pending := db.pending ++ [(db.nextId, m4)], nextId := db.nextId + 1 })

/-- `MatchService.append_discord_message_id_list`. -/
def append_discord_message_id_list (db : DB) (match_id : Nat)
    (msgIds : List String) : Except ServiceError MatchModel × DB :=
  match findPending db match_id with
  | none => (.error .notFound, db)
  | some m =>
    let m' := { m with discord_messages_id_list := m.discord_messages_id_list ++ msgIds }
    (.ok m', setPending db match_id m')

/-- Python `str.split(' ')` (single-space separator, empty pieces kept),
written with structural recursion so that concrete instances evaluate. -/
def splitSpaceAux : List Char → List Char → List String
  | [], acc => [String.mk acc.reverse]
  | c :: cs, acc =>
    if c = ' ' then String.mk acc.reverse :: splitSpaceAux cs []
    else splitSpaceAux cs (c :: acc)

def pySplitSpace (s : String) : List String := splitSpaceAux s.data []

/-- Python list indexing with sign handling (`l[i]` for `i : Int`). -/
def pyIndex {α : Type} (l : List α) (i : Int) : Option α :=
  let j := if i < 0 then i + (l.length : Int) else i
  if 0 ≤ j then l.get? j.toNat else none

/-- The placement-assignment loop of `change_order`:
`player.placement = int(new_order_list[player.team]) - 1`, failing (a
Python `IndexError`/`ValueError`) on a bad team index or token. -/
def assignPlacements : List PlayerModel → List String → Option (List PlayerModel)
  | [], _ => some []
  | p :: ps, toks =>
    match pyIndex toks p.team with
    | none => none
    | some tk =>
      match tk.toInt? with
      | none => none
      | some v =>
        match assignPlacements ps toks with
        | none => none
        | some rest => some ({ p with placement := some (v - 1) } :: rest)

/-- The per-index `$set` document written by `change_order`: for every
slot the new placement and the three recomputed deltas, merged onto the
stored players. -/
def mergeOrderChanges (stored recomputed : List PlayerModel) : List PlayerModel :=
  (stored.zip recomputed).map fun op =>
    { op.1 with
      placement := op.2.placement, delta := op.2.delta,
      season_delta := op.2.season_delta, combined_delta := op.2.combined_delta }

/-- `MatchService.change_order`: validate the space-separated new-order
string against the number of distinct teams, apply one placement per
team, recompute all three stat spaces and persist placements and deltas. -/
def change_order (s : Settings) (env : TSEnv) (db : DB) (match_id : Nat)
    (new_order : String) (msgId : String) : Except ServiceError MatchModel × DB :=
  match findPending db match_id with
  | none => (.error .notFound, db)
  | some m =>
    let toks := pySplitSpace new_order
    if toks.length ≠ numTeams m.players then
      (.error (.matchService "New order length does not match number of players/teams"), db)
    else
      match assignPlacements m.players toks with
      | none => (.error .crash, db)
      | some ps1 =>
        let m1 := { m with players := ps1 }
        let r := get_players_ranking s db m1 false false
        let rs := get_players_ranking s db m1 true false
        let rc := get_players_ranking s db m1 false true
        match update_player_stats s env m1 r .delta with
        | none => (.error .crash, db)
        | some (m2, _) =>
          match update_player_stats s env m2 rs .season_delta with
          | none => (.error .crash, db)
          | some (m3, _) =>
            match update_player_stats s env m3 rc .combined_delta with
            | none => (.error .crash, db)
            | some (m4, _) =>
              let stored := { m with
                discord_messages_id_list := m.discord_messages_id_list ++ [msgId]
              , players := mergeOrderChanges m.players m4.players }
              (.ok stored, setPending db match_id stored)

/-- `MatchService.trigger_quit`: flip the quit flag on the first player
row bound to the given identity (no-op on the players if absent). -/
def trigger_quit (db : DB) (match_id : Nat) (quitter : String) (msgId : String) :
    Except ServiceError MatchModel × DB :=
  match findPending db match_id with
  | none => (.error .notFound, db)
  | some m =>
    let ps' :=
      match m.players.findIdx? (fun p => p.discord_id = some quitter) with
      | some i =>
        let p := m.players.getD i dfltPlayer
        setIdx m.players i { p with quit := !p.quit }
      | none => m.players
    let stored := { m with
      players := ps',
      discord_messages_id_list := m.discord_messages_id_list ++ [msgId] }
    (.ok stored, setPending db match_id stored)

/-- The slot update performed by `assign_discord_id` on the targeted
player: bind the identity and its linked platform account. -/
def boundPlayer (p : PlayerModel) (did : String) (steam : Option String) : PlayerModel :=
  { p with discord_id := some did, steam_id := steam }

/-- `match.players[i].is_sub = True` (the origin slot of `assign_sub`). -/
def markSubIn (p : PlayerModel) : PlayerModel := { p with is_sub := true }

/-- `match.players[i-1].is_sub = False` (the origin slot of `remove_sub`). -/
def clearSubIn (p : PlayerModel) : PlayerModel := { p with is_sub := false }

/-- The substituted-out row inserted by `assign_sub`: it carries the
origin slot's civilization, team, leader, alive flag and placement, the
outgoing player's identity, and `subbed_out = true`, `is_sub = false`. -/
def subOutRow (orig : PlayerModel) (steam : Option String) (dout : String) : PlayerModel :=
  { steam_id := steam
  , user_name := none
  , civ := orig.civ
  , team := orig.team
  , leader := orig.leader
  , player_alive := orig.player_alive
  , discord_id := some dout
  , placement := orig.placement
  , quit := false
  , delta := 0
  , is_sub := false
  , subbed_out := true }

/-- The per-slot `$set` document written by `assign_discord_id`: the new
identity and platform account on the targeted slot plus, for every slot,
the recomputed `delta` and `season_delta` — the source writes no
`combined_delta` field. -/
def mergeAssignChanges (idx : Nat) (did : String) (steam : Option String)
    (stored recomputed : List PlayerModel) : List PlayerModel :=
  mapWithIndex (fun i op =>
    let o1 := if i = idx then boundPlayer op did steam else op
    { o1 with
      delta := (recomputed.getD i dfltPlayer).delta,
      season_delta := (recomputed.getD i dfltPlayer).season_delta }) stored

/-- `MatchService.assign_discord_id`: bind a persistent identity (and its
linked platform account) to a 1-based player slot, recompute the three
stat spaces and persist the changed fields. -/
def assign_discord_id (s : Settings) (env : TSEnv) (dir : Directory) (db : DB)
    (match_id : Nat) (player_id : Int) (player_discord_id : String)
    (msgId : String) : Except ServiceError MatchModel × DB :=
  match findPending db match_id with
  | none => (.error .notFound, db)
  | some m =>
    if player_id < 1 ∨ player_id > (m.players.length : Int) then
      (.error (.matchService "Player ID out of range. Must be between 1 and number of players"), db)
    else
      let idx := (player_id - 1).toNat
      let steam := dir.discord_to_steam player_discord_id
      let ps1 := setIdx m.players idx
        (boundPlayer (m.players.getD idx dfltPlayer) player_discord_id steam)
      let m1 := { m with players := ps1 }
      let r := get_players_ranking s db m1 false false
      let rs := get_players_ranking s db m1 true false
      let rc := get_players_ranking s db m1 false true
      match update_player_stats s env m1 r .delta with
      | none => (.error .crash, db)
      | some (m2, _) =>
        match update_player_stats s env m2 rs .season_delta with
        | none => (.error .crash, db)
        | some (m3, _) =>
          match update_player_stats s env m3 rc .combined_delta with
          | none => (.error .crash, db)
          | some (m4, _) =>
            let stored := { m with
              discord_messages_id_list := m.discord_messages_id_list ++ [msgId],
              players := mergeAssignChanges idx player_discord_id
                (m4.players.getD idx dfltPlayer).steam_id m.players m4.players }
            (.ok stored, setPending db match_id stored)

/-- `MatchService.assign_sub`: given a 0-based slot index, mark that slot
as a substitute-in, insert right after it a substituted-out row carrying
the slot's civilization, leader, team, placement and alive flag bound to
the outgoing identity, recompute the three stat spaces and replace the
stored document. -/
def assign_sub (s : Settings) (env : TSEnv) (dir : Directory) (db : DB)
    (match_id : Nat) (sub_in_id : Int) (sub_out_discord_id : String)
    (msgId : String) : Except ServiceError MatchModel × DB :=
  match findPending db match_id with
  | none => (.error .notFound, db)
  | some m =>
    if sub_in_id < 0 ∨ (m.players.length : Int) ≤ sub_in_id then
      (.error (.matchService "Sub in Player ID out of range. Must be between 0 and number of players - 1"), db)
    else
      let i := sub_in_id.toNat
      let ps1 := setIdx m.players i (markSubIn (m.players.getD i dfltPlayer))
      let ps2 := insertAt ps1 (i + 1)
        (subOutRow (ps1.getD i dfltPlayer)
          (dir.discord_to_steam sub_out_discord_id) sub_out_discord_id)
      let m1 := { m with players := ps2 }
      let r := get_players_ranking s db m1 false false
      let rs := get_players_ranking s db m1 true false
      let rc := get_players_ranking s db m1 false true
      match update_player_stats s env m1 r .delta with
      | none => (.error .crash, db)
      | some (m2, _) =>
        match update_player_stats s env m2 rs .season_delta with
        | none => (.error .crash, db)
        | some (m3, _) =>
          match update_player_stats s env m3 rc .combined_delta with
          | none => (.error .crash, db)
          | some (m4, _) =>
            let stored := { m4 with
              discord_messages_id_list := m.discord_messages_id_list ++ [msgId] }
            (.ok stored, setPending db match_id stored)

/-- `MatchService.remove_sub`: the supplied index (guarded to `1 ≤ i <
len`) must denote a substituted-out row of the stored player list; clear
`is_sub` on the row right before it, delete the row, recompute the three
stat spaces and replace the stored document. -/
def remove_sub (s : Settings) (env : TSEnv) (db : DB) (match_id : Nat)
    (sub_out_id : Int) (msgId : String) : Except ServiceError MatchModel × DB :=
  match findPending db match_id with
  | none => (.error .notFound, db)
  | some m =>
    if sub_out_id < 1 ∨ (m.players.length : Int) ≤ sub_out_id
        ∨ ¬(m.players.getD sub_out_id.toNat dfltPlayer).subbed_out then
      (.error (.matchService "Sub in Player ID out of range. Must be between 1 and number of players - 1"), db)
    else
      let i := sub_out_id.toNat
      let ps1 := setIdx m.players (i - 1) (clearSubIn (m.players.getD (i - 1) dfltPlayer))
      let ps2 := removeAt ps1 i
      let m1 := { m with players := ps2 }
      let r := get_players_ranking s db m1 false false
      let rs := get_players_ranking s db m1 true false
      let rc := get_players_ranking s db m1 false true
      match update_player_stats s env m1 r .delta with
      | none => (.error .crash, db)
      | some (m2, _) =>
        match update_player_stats s env m2 rs .season_delta with
        | none => (.error .crash, db)
        | some (m3, _) =>
          match update_player_stats s env m3 rc .combined_delta with
          | none => (.error .crash, db)
          | some (m4, _) =>
            let stored := { m4 with
              discord_messages_id_list := m.discord_messages_id_list ++ [msgId] }
            (.ok stored, setPending db match_id stored)

/-- The civilization/leader label formatter.  Modelled from the spec:
`get_cpl_name` lives in `app.utils`, which is not under `src/`; the spec
only requires a label keyed by civilization/leader, so the
concatenation of both is used. -/
def get_cpl_name (game : String) (civ : String) (leader : Option String) : String :=
  game ++ ":" ++ civ ++ leader.getD ""

def bumpCiv (civs : List (String × Nat)) (key : String) : List (String × Nat) :=
  setAssoc civs key (((lookupAssoc civs key).getD 0) + 1)

/-- `MatchService.get_player_stats_db`: the replacement aggregate-stats
document for one player in one stat space (`lastModified` omitted). -/
def get_player_stats_db (m : MatchModel) (p : PlayerModel) (ns : StatModel)
    (fld : DeltaField) : StatRow :=
  { mu := ns.mu
  , sigma := ns.sigma
  , games := ns.games + 1
  , wins := ns.wins + (if getDeltaField fld p > 0 then 1 else 0)
  , first := ns.first + (if p.placement = some 0 then 1 else 0)
  , subbedIn := ns.subbedIn + (if p.is_sub then 1 else 0)
  , subbedOut := ns.subbedOut + (if p.subbed_out then 1 else 0)
  , civs := if p.civ ≠ "" then bumpCiv ns.civs (get_cpl_name m.game p.civ p.leader) else ns.civs }

/-- One write issued through the transaction session of `approve_match`. -/
inductive TxWrite where
  | statUpsert (t : TableRef) (key : String) (row : StatRow)
  | subsInc (key : String)
  | validatedInsert (m : MatchModel)
  | pendingDelete (id : Nat)

/-- Apply one committed transactional write to the database state. -/
def applyWrite (db : DB) : TxWrite → DB
  | .statUpsert t k row => upsertRow db t k row
  | .subsInc k => { db with subs := setAssoc db.subs k (((lookupAssoc db.subs k).getD 0) + 1) }
  | .validatedInsert m =>
    { db with
      validated := db.validated ++ [(db.nextValidatedId, m)],
      nextValidatedId := db.nextValidatedId + 1 }
  | .pendingDelete id => { db with pending := db.pending.filter fun im => im.1 ≠ id }

/-- The persistence driver's multi-collection transaction: writes are
staged in order; if the oracle makes the k-th write fail the transaction
is aborted and none of the staged writes is observable (`none`). -/
def runTx (oracle : Nat → Bool) : Nat → List TxWrite → DB → Option DB
  | _, [], db => some db
  | k, w :: ws, db => if oracle k then none else runTx oracle (k + 1) ws (applyWrite db w)

/-- The write sequence of the approval transaction body: for every
player the three aggregate-stats upserts (and the substitute-activity
increment for substitute-ins), then the validated-match insert and the
pending-record delete. -/
def approveWrites (match_id : Nat) (m : MatchModel)
    (post seasonPost combinedPost : List StatModel)
    (t ts tc : TableRef) : List TxWrite :=
  (mapWithIndex (fun i p =>
      let k := p.discord_id.getD ""
      [ TxWrite.statUpsert t k (get_player_stats_db m p (post.getD i dfltStat) .delta)
      , TxWrite.statUpsert ts k (get_player_stats_db m p (seasonPost.getD i dfltStat) .season_delta)
      , TxWrite.statUpsert tc k (get_player_stats_db m p (combinedPost.getD i dfltStat) .combined_delta) ]
      ++ (if p.is_sub then [TxWrite.subsInc k] else [])) m.players).flatten
  ++ [TxWrite.validatedInsert m, TxWrite.pendingDelete match_id]

/-- `MatchService.approve_match`: require every slot bound, recompute the
three stat spaces, stamp approval metadata, then run all aggregate
upserts, the validated insert and the pending delete as one transaction;
on any failure the transaction aborts and the error is re-raised as a
service error. -/
def approve_match (s : Settings) (env : TSEnv) (oracle : Nat → Bool) (db : DB)
    (match_id : Nat) (approver : String) (now : Nat) :
    Except ServiceError (Nat × MatchModel) × DB :=
  match findPending db match_id with
  | none => (.error .notFound, db)
  | some m =>
    if m.players.any (fun p => p.discord_id = none) then
      (.error (.matchService "Player has no linked Discord ID"), db)
    else
      let r := get_players_ranking s db m false false
      let rs := get_players_ranking s db m true false
      let rc := get_players_ranking s db m false true
      match update_player_stats s env m r .delta with
      | none => (.error .crash, db)
      | some (m1, post) =>
        match update_player_stats s env m1 rs .season_delta with
        | none => (.error .crash, db)
        | some (m2, seasonPost) =>
          match update_player_stats s env m2 rc .combined_delta with
          | none => (.error .crash, db)
          | some (m3, combinedPost) =>
            let m4 := { m3 with approved_at := some now, approver_discord_id := some approver }
            let t := get_stat_table m4.is_cloud m4.game_mode m4.game false false
            let ts := get_stat_table m4.is_cloud m4.game_mode m4.game true false
            let tc := get_stat_table m4.is_cloud m4.game_mode m4.game false true
            match runTx oracle 0 (approveWrites match_id m4 post seasonPost combinedPost t ts tc) db with
            | none => (.error (.matchService "An error occured during writing to DB"), db)
            | some db' => (.ok (db.nextValidatedId, m4), db')

/-- Every field of a player row except the three delta fields — the part
of a row the rating update never writes. -/
structure PlayerCore where
  steam_id : Option String
  user_name : Option String
  civ : String
  team : Int
  leader : Option String
  player_alive : Option Bool
  discord_id : Option String
  placement : Option Int
  quit : Bool
  is_sub : Bool
  subbed_out : Bool
deriving DecidableEq

def PlayerModel.core (p : PlayerModel) : PlayerCore :=
  { steam_id := p.steam_id, user_name := p.user_name, civ := p.civ
  , team := p.team, leader := p.leader, player_alive := p.player_alive
  , discord_id := p.discord_id, placement := p.placement, quit := p.quit
  , is_sub := p.is_sub, subbed_out := p.subbed_out }

/-! ### The substitution-flag invariant and the mutation-operation system -/

/-- A row is never both a substitute-in and a substituted-out player. -/
def rowFlagsOK (p : PlayerModel) : Bool := !(p.is_sub && p.subbed_out)

def matchFlagsOK (m : MatchModel) : Bool := m.players.all rowFlagsOK

def pendingFlagsOK (db : DB) : Bool := db.pending.all fun im => matchFlagsOK im.2

/-- The mutation operations of the claim: ingestion plus the six
pending-match state transitions (reorder, toggle quit, bind identity,
insert substitute, remove substitute, append correlation ids). -/
inductive MutOp where
  | ingest (parsed : ParsedSave) (reporter : String) (cloud : Bool) (msgId : String)
  | reorder (id : Nat) (new_order : String) (msgId : String)
  | toggleQuit (id : Nat) (quitter : String) (msgId : String)
  | bindIdentity (id : Nat) (pid : Int) (did : String) (msgId : String)
  | insertSub (id : Nat) (i : Int) (dout : String) (msgId : String)
  | removeSubOp (id : Nat) (i : Int) (msgId : String)
  | appendIds (id : Nat) (msgs : List String)

/-- The database state after one mutation operation. -/
def applyMutOp (s : Settings) (env : TSEnv) (dir : Directory) (db : DB) :
    MutOp → DB
  | .ingest p r c msg => (create_from_save s env dir db p r c msg).2
  | .reorder id o msg => (change_order s env db id o msg).2
  | .toggleQuit id q msg => (trigger_quit db id q msg).2
  | .bindIdentity id pid d msg => (assign_discord_id s env dir db id pid d msg).2
  | .insertSub id i d msg => (assign_sub s env dir db id i d msg).2
  | .removeSubOp id i msg => (remove_sub s env db id i msg).2
  | .appendIds id msgs => (append_discord_message_id_list db id msgs).2

/-- The side condition under which the flag invariant is actually
preserved: an insert-substitute call must not target a slot that is
already marked substituted-out (the source does not reject such calls). -/
def mutOpSafe (db : DB) : MutOp → Prop
  | .insertSub id i _ _ =>
    ∀ m, findPending db id = some m →
      (m.players.getD i.toNat dfltPlayer).subbed_out = false
  | _ => True

/-- Database states reachable by sequences of (side-condition respecting)
mutation operations. -/
inductive ReachableBy (s : Settings) (env : TSEnv) (dir : Directory) :
    DB → DB → Prop where
  | refl (db : DB) : ReachableBy s env dir db db
  | step (db1 db2 : DB) (op : MutOp) : ReachableBy s env dir db1 db2 →
      mutOpSafe db2 op → ReachableBy s env dir db1 (applyMutOp s env dir db2 op)

/-! ### Concrete fixtures used by the witnesses and counterexamples -/

def sW : Settings :=
  { ts_mu := Frac.ofInt 25, ts_sigma := { num := 25, den := 3 }
  , min_points_for_subs := -5 }

/-- A TrueSkill environment that returns the prior ratings unchanged,
used to evaluate the operations on concrete inputs. -/
def idRate : TSEnv := fun ts _ => ts

def dirW : Directory :=
  { discord_to_steam := fun _ => none, steam_to_discord := fun _ => none }

def pA : PlayerModel :=
  { civ := "Rome", team := 0, placement := some 0, discord_id := some "1" }

def pB : PlayerModel :=
  { civ := "Gaul", team := 1, placement := some 1, discord_id := some "2" }

def mAB : MatchModel :=
  { game := "civ6", turn := 10, map_type := "pangaea", game_mode := "FFA"
  , is_cloud := false, players := [pA, pB], parser_version := "v"
  , discord_messages_id_list := [], save_file_hash := "h"
  , reporter_discord_id := "r" }

def db0 : DB :=
  { pending := [(0, mAB)], validated := [], stats := [], subs := []
  , nextId := 1, nextValidatedId := 0 }

def mSingle : MatchModel := { mAB with players := [pA, { pB with team := 0 }] }

def dbSingle : DB := { db0 with pending := [(0, mSingle)] }

def mUnbound : MatchModel := { mAB with players := [pA, { pB with discord_id := none }] }

def dbUnbound : DB := { db0 with pending := [(0, mUnbound)] }

def subP0 : PlayerModel := { civ := "A", team := 0, placement := some 0, is_sub := true }

def subP1 : PlayerModel := { civ := "A", team := 0, placement := some 0, subbed_out := true }

def subP2 : PlayerModel := { civ := "B", team := 1, placement := some 1 }

def mSub : MatchModel := { mAB with players := [subP0, subP1, subP2] }

def dbSub : DB := { db0 with pending := [(0, mSub)] }

def parsedW : ParsedSave :=
  { game := "civ6", turn := 3, map_type := "pangaea", game_mode := "FFA"
  , players := [ { civ := "Rome", team := 0, placement := some 0 }
               , { civ := "Gaul", team := 1, placement := some 1 } ]
  , parser_version := "v" }

def parsedSingle : ParsedSave :=
  { parsedW with players := [ { civ := "Rome", team := 0, placement := some 0 }
                            , { civ := "Gaul", team := 0, placement := some 1 } ] }

def dbEmpty : DB :=
  { pending := [], validated := [], stats := [], subs := []
  , nextId := 5, nextValidatedId := 0 }

def c5p0 : PlayerModel :=
  { civ := "Rome", team := 0, placement := some 0, combined_delta := some 7 }

def c5m : MatchModel := { mAB with players := [c5p0, pB] }

def dbC5 : DB := { db0 with pending := [(0, c5m)] }

def c5res : Except ServiceError MatchModel × DB :=
  assign_discord_id sW idRate dirW dbC5 0 1 "42" "m"

/-- The player list of the C5 pending match right after the identity is
bound to slot 1, before any recompute — the input of the fresh
combined-space recomputation. -/
def c5pBound : PlayerModel := boundPlayer c5p0 "42" none

def c5mBound : MatchModel :=
  { c5m with players := setIdx c5m.players 0 c5pBound }

def chainDb1 : DB := (create_from_save sW idRate dirW dbEmpty parsedW "rep" false "m0").2

def chainDb2 : DB := (assign_sub sW idRate dirW chainDb1 5 0 "55" "m1").2

def chainDb3 : DB := (assign_sub sW idRate dirW chainDb2 5 1 "66" "m2").2

/-- The raw per-player delta computed by `update_player_stats` before the
policy overlay: `round(posterior.mean - prior.mean)` for players with a
bound identity, `0` otherwise. -/
def computedDelta (env : TSEnv) (m : MatchModel) (ranking : List StatModel)
    (i : Nat) : Int :=
  if (m.players.getD i dfltPlayer).discord_id.isSome then
    pyRound (((mergedPost env m.players ranking).getD i dfltStat).mu.sub
      (ranking.getD i dfltStat).mu)
  else 0

def rankW : List StatModel := get_players_ranking sW db0 mAB false false

def updWres : MatchModel × List StatModel :=
  (update_player_stats sW idRate mAB rankW .delta).getD (mAB, [])

instance instDecEqExcept {e a : Type} [DecidableEq e] [DecidableEq a] :
    DecidableEq (Except e a)
  | .ok x, .ok y =>
    if h : x = y then .isTrue (h ▸ rfl) else .isFalse fun hc => h (Except.ok.inj hc)
  | .error x, .error y =>
    if h : x = y then .isTrue (h ▸ rfl) else .isFalse fun hc => h (Except.error.inj hc)
  | .ok _, .error _ => .isFalse fun hc => Except.noConfusion hc
  | .error _, .ok _ => .isFalse fun hc => Except.noConfusion hc

def crW1 : Except ServiceError CreateOut × DB :=
  create_from_save sW idRate dirW dbEmpty parsedW "rep" false "m0"

def crW1out : CreateOut :=
  crW1.1.toOption.getD { match_id := 0, repeated := true, body := mAB }

/-! ### List toolkit lemmas -/

theorem length_mapWithIndexFrom {α β : Type} (f : Nat → α → β) :
    ∀ (n : Nat) (l : List α), (mapWithIndexFrom f n l).length = l.length
  | _, [] => rfl
  | n, _ :: xs => by simp [mapWithIndexFrom, length_mapWithIndexFrom f (n + 1) xs]

theorem length_mapWithIndex {α β : Type} (f : Nat → α → β) (l : List α) :
    (mapWithIndex f l).length = l.length :=
  length_mapWithIndexFrom f 0 l

theorem getD_mapWithIndexFrom {α β : Type} (f : Nat → α → β) (dα : α) (dβ : β) :
    ∀ (n : Nat) (l : List α) (i : Nat), i < l.length →
      (mapWithIndexFrom f n l).getD i dβ = f (n + i) (l.getD i dα)
  | _, [], _, h => absurd h (by simp)
  | n, x :: xs, 0, _ => by simp [mapWithIndexFrom]
  | n, x :: xs, i + 1, h => by
    have := getD_mapWithIndexFrom f dα dβ (n + 1) xs i (by simpa using h)
    simpa [mapWithIndexFrom, Nat.add_assoc, Nat.add_comm 1 i] using this

theorem getD_mapWithIndex {α β : Type} (f : Nat → α → β) (dα : α) (dβ : β)
    (l : List α) (i : Nat) (h : i < l.length) :
    (mapWithIndex f l).getD i dβ = f i (l.getD i dα) := by
  simpa using getD_mapWithIndexFrom f dα dβ 0 l i h

theorem map_mapWithIndexFrom {α β γ : Type} (f : Nat → α → β) (g : β → γ) (h : α → γ)
    (hfg : ∀ n a, g (f n a) = h a) :
    ∀ (n : Nat) (l : List α), (mapWithIndexFrom f n l).map g = l.map h
  | _, [] => rfl
  | n, x :: xs => by
    simp [mapWithIndexFrom, hfg, map_mapWithIndexFrom f g h hfg (n + 1) xs]

theorem length_setIdx {α : Type} : ∀ (l : List α) (i : Nat) (a : α),
    (setIdx l i a).length = l.length
  | [], _, _ => rfl
  | _ :: _, 0, _ => rfl
  | x :: xs, i + 1, a => by simp [setIdx, length_setIdx xs i a]

theorem getD_setIdx_self {α : Type} : ∀ (l : List α) (i : Nat) (a d : α),
    i < l.length → (setIdx l i a).getD i d = a
  | [], _, _, _, h => absurd h (by simp)
  | _ :: _, 0, _, _, _ => rfl
  | x :: xs, i + 1, a, d, h => getD_setIdx_self xs i a d (by simpa using h)

theorem getD_setIdx_of_ne {α : Type} : ∀ (l : List α) (i j : Nat) (a d : α),
    i ≠ j → (setIdx l i a).getD j d = l.getD j d
  | [], _, _, _, _, _ => by simp [setIdx]
  | _ :: _, 0, 0, _, _, h => absurd rfl h
  | _ :: _, 0, _ + 1, _, _, _ => rfl
  | _ :: _, _ + 1, 0, _, _, _ => rfl
  | x :: xs, i + 1, j + 1, a, d, h =>
    getD_setIdx_of_ne xs i j a d (fun hc => h (by simp [hc]))

theorem map_setIdx {α β : Type} (g : α → β) : ∀ (l : List α) (i : Nat) (a : α),
    (setIdx l i a).map g = setIdx (l.map g) i (g a)
  | [], _, _ => rfl
  | _ :: _, 0, _ => rfl
  | x :: xs, i + 1, a => by simp [setIdx, map_setIdx g xs i a]

theorem all_setIdx {α : Type} (f : α → Bool) : ∀ (l : List α) (i : Nat) (a : α),
    l.all f = true → f a = true → (setIdx l i a).all f = true
  | [], _, _, _, _ => rfl
  | x :: xs, 0, a, hl, ha => by
    simp only [List.all_cons, Bool.and_eq_true] at hl
    simp [setIdx, ha, hl.2]
  | x :: xs, i + 1, a, hl, ha => by
    simp only [List.all_cons, Bool.and_eq_true] at hl
    simp [setIdx, hl.1, all_setIdx f xs i a hl.2 ha]

theorem length_insertAt {α : Type} : ∀ (l : List α) (n : Nat) (a : α),
    (insertAt l n a).length = l.length + 1
  | _, 0, _ => by simp [insertAt]
  | [], _ + 1, _ => rfl
  | x :: xs, n + 1, a => by simp [insertAt, length_insertAt xs n a]

theorem getD_insertAt_self {α : Type} : ∀ (l : List α) (n : Nat) (a d : α),
    n ≤ l.length → (insertAt l n a).getD n d = a
  | _, 0, _, _, _ => by simp [insertAt]
  | [], n + 1, _, _, h => absurd h (by simp)
  | x :: xs, n + 1, a, d, h => getD_insertAt_self xs n a d (by simpa using h)

theorem getD_insertAt_of_lt {α : Type} : ∀ (l : List α) (n : Nat) (a d : α) (j : Nat),
    j < n → n ≤ l.length → (insertAt l n a).getD j d = l.getD j d
  | _, 0, _, _, _, h, _ => absurd h (by simp)
  | [], _ + 1, _, _, _, _, hn => absurd hn (by simp)
  | _ :: _, _ + 1, _, _, 0, _, _ => rfl
  | x :: xs, n + 1, a, d, j + 1, h, hn =>
    getD_insertAt_of_lt xs n a d j (by omega) (by simpa using hn)

theorem map_insertAt {α β : Type} (g : α → β) : ∀ (l : List α) (n : Nat) (a : α),
    (insertAt l n a).map g = insertAt (l.map g) n (g a)
  | _, 0, _ => by simp [insertAt]
  | [], _ + 1, _ => rfl
  | x :: xs, n + 1, a => by simp [insertAt, map_insertAt g xs n a]

theorem mem_insertAt {α : Type} : ∀ (l : List α) (n : Nat) (a x : α),
    x ∈ insertAt l n a ↔ x = a ∨ x ∈ l
  | l, 0, a, x => by simp [insertAt]
  | [], n + 1, a, x => by simp [insertAt]
  | y :: ys, n + 1, a, x => by
    simp [insertAt, mem_insertAt ys n a x]
    tauto

theorem all_insertAt {α : Type} (f : α → Bool) : ∀ (l : List α) (n : Nat) (a : α),
    l.all f = true → f a = true → (insertAt l n a).all f = true
  | l, 0, a, hl, ha => by simp [insertAt, ha, hl]
  | [], n + 1, a, hl, ha => by simp [insertAt, ha]
  | x :: xs, n + 1, a, hl, ha => by
    simp only [List.all_cons, Bool.and_eq_true] at hl
    simp [insertAt, hl.1, all_insertAt f xs n a hl.2 ha]

theorem length_removeAt {α : Type} : ∀ (l : List α) (i : Nat),
    i < l.length → (removeAt l i).length = l.length - 1
  | [], _, h => absurd h (by simp)
  | _ :: _, 0, _ => by simp [removeAt]
  | x :: xs, i + 1, h => by
    have hx : i < xs.length := by simpa using h
    have := length_removeAt xs i hx
    simp only [removeAt, List.length_cons, this]
    omega

theorem getD_removeAt_of_lt {α : Type} : ∀ (l : List α) (i j : Nat) (d : α),
    j < i → (removeAt l i).getD j d = l.getD j d
  | [], _, _, _, _ => by simp [removeAt]
  | _ :: _, 0, _, _, h => absurd h (by simp)
  | _ :: _, _ + 1, 0, _, _ => rfl
  | x :: xs, i + 1, j + 1, d, h => getD_removeAt_of_lt xs i j d (by omega)

theorem map_removeAt {α β : Type} (g : α → β) : ∀ (l : List α) (i : Nat),
    (removeAt l i).map g = removeAt (l.map g) i
  | [], _ => rfl
  | _ :: _, 0 => rfl
  | x :: xs, i + 1 => by simp [removeAt, map_removeAt g xs i]

theorem removeAt_insertAt {α : Type} : ∀ (l : List α) (n : Nat) (a : α),
    n ≤ l.length → removeAt (insertAt l n a) n = l
  | _, 0, _, _ => by simp [insertAt, removeAt]
  | [], n + 1, _, h => absurd h (by simp)
  | x :: xs, n + 1, a, h => by
    simp [insertAt, removeAt, removeAt_insertAt xs n a (by simpa using h)]

theorem mem_removeAt {α : Type} : ∀ (l : List α) (i : Nat) (x : α),
    x ∈ removeAt l i → x ∈ l
  | [], _, _, h => h
  | _ :: _, 0, _, h => List.mem_cons_of_mem _ h
  | y :: ys, i + 1, x, h => by
    rcases List.mem_cons.1 h with h | h
    · exact List.mem_cons.2 (Or.inl h)
    · exact List.mem_cons.2 (Or.inr (mem_removeAt ys i x h))

theorem all_removeAt {α : Type} (f : α → Bool) : ∀ (l : List α) (i : Nat),
    l.all f = true → (removeAt l i).all f = true
  | [], _, h => h
  | _ :: _, 0, h => by
    simp only [List.all_cons, Bool.and_eq_true] at h
    exact h.2
  | x :: xs, i + 1, h => by
    simp only [List.all_cons, Bool.and_eq_true] at h
    simp [removeAt, h.1, all_removeAt f xs i h.2]

theorem dedup_length_le_of_subset {α : Type} [DecidableEq α] {l₁ l₂ : List α}
    (h : l₁ ⊆ l₂) : l₁.dedup.length ≤ l₂.dedup.length :=
  List.Subperm.length_le
    ((List.nodup_dedup l₁).subperm fun x hx =>
      List.mem_dedup.2 (h (List.mem_dedup.1 hx)))

theorem dedup_length_insertAt_of_mem {α : Type} [DecidableEq α] {l : List α}
    {a : α} (n : Nat) (ha : a ∈ l) :
    (insertAt l n a).dedup.length = l.dedup.length :=
  Nat.le_antisymm
    (dedup_length_le_of_subset fun x hx => by
      rcases (mem_insertAt l n a x).1 hx with rfl | hx
      · exact ha
      · exact hx)
    (dedup_length_le_of_subset fun x hx => (mem_insertAt l n a x).2 (Or.inr hx))

theorem lookupAssoc_setAssoc_self {κ α : Type} [DecidableEq κ] :
    ∀ (l : List (κ × α)) (k : κ) (a : α), lookupAssoc (setAssoc l k a) k = some a
  | [], k, a => by simp [setAssoc, lookupAssoc]
  | (k', a') :: rest, k, a => by
    by_cases h : k' = k
    · simp [setAssoc, lookupAssoc, h]
    · simp [setAssoc, lookupAssoc, h, lookupAssoc_setAssoc_self rest k a]

theorem lookupAssoc_setAssoc_of_ne {κ α : Type} [DecidableEq κ] :
    ∀ (l : List (κ × α)) (k k' : κ) (a : α), k ≠ k' →
      lookupAssoc (setAssoc l k a) k' = lookupAssoc l k'
  | [], k, k', a, h => by simp [setAssoc, lookupAssoc, h]
  | (k₀, a₀) :: rest, k, k', a, h => by
    by_cases h₀ : k₀ = k
    · subst h₀
      simp [setAssoc, lookupAssoc, h]
    · simp [setAssoc, lookupAssoc, h₀, lookupAssoc_setAssoc_of_ne rest k k' a h]

theorem find?_append {α : Type} (p : α → Bool) :
    ∀ (l₁ l₂ : List α), l₁.find? p = none →
      (l₁ ++ l₂).find? p = l₂.find? p
  | [], _, _ => rfl
  | x :: xs, l₂, h => by
    by_cases hx : p x
    · simp [List.find?_cons, hx] at h
    · simp only [List.find?_cons, hx] at h ⊢
      simp only [List.cons_append, List.find?_cons, hx]
      exact find?_append p xs l₂ h

/-! ### Structural facts about the rating update -/

theorem core_setDeltaField (fld : DeltaField) (p : PlayerModel) (v : Int) :
    (setDeltaField fld p v).core = p.core := by
  cases fld <;> rfl

theorem update_player_stats_eq_none_iff (s : Settings) (env : TSEnv)
    (m : MatchModel) (r : List StatModel) (fld : DeltaField) :
    update_player_stats s env m r fld = none ↔ numTeams m.players ≤ 1 := by
  unfold update_player_stats
  by_cases h : numTeams m.players ≤ 1 <;> simp [h]

theorem update_player_stats_shape {s : Settings} {env : TSEnv}
    {m m' : MatchModel} {r post : List StatModel} {fld : DeltaField}
    (h : update_player_stats s env m r fld = some (m', post)) :
    m' = { m with players := m'.players }
    ∧ m'.players.map PlayerModel.core = m.players.map PlayerModel.core
    ∧ 1 < numTeams m.players := by
  unfold update_player_stats at h
  by_cases ht : numTeams m.players ≤ 1
  · simp [ht] at h
  · simp only [ht, if_false] at h
    obtain ⟨hm, _⟩ := Prod.mk.injEq .. ▸ Option.some.injEq .. ▸ h
    refine ⟨?_, ?_, by omega⟩
    · rw [← hm]
    · rw [← hm]
      exact map_mapWithIndexFrom _ PlayerModel.core PlayerModel.core
        (fun n a => core_setDeltaField fld a _) 0 m.players

theorem core_map_team {ps qs : List PlayerModel}
    (h : ps.map PlayerModel.core = qs.map PlayerModel.core) :
    ps.map (fun p => p.team) = qs.map (fun p => p.team) := by
  have h1 : ps.map (fun p => p.team) = (ps.map PlayerModel.core).map (fun c => c.team) := by
    simp only [List.map_map]
    exact List.map_congr_left fun a _ => rfl
  have h2 : qs.map (fun p => p.team) = (qs.map PlayerModel.core).map (fun c => c.team) := by
    simp only [List.map_map]
    exact List.map_congr_left fun a _ => rfl
  rw [h1, h2, h]

theorem core_length {ps qs : List PlayerModel}
    (h : ps.map PlayerModel.core = qs.map PlayerModel.core) :
    ps.length = qs.length := by
  have := congrArg List.length h
  simpa using this

theorem numTeams_eq_of_core_eq {ps qs : List PlayerModel}
    (h : ps.map PlayerModel.core = qs.map PlayerModel.core) :
    numTeams ps = numTeams qs := by
  unfold numTeams
  rw [core_map_team h]

theorem getD_core {ps qs : List PlayerModel}
    (h : ps.map PlayerModel.core = qs.map PlayerModel.core)
    (i : Nat) (hi : i < ps.length) :
    (ps.getD i dfltPlayer).core = (qs.getD i dfltPlayer).core := by
  have hlen := core_length h
  have h1 : (ps.map PlayerModel.core).getD i dfltPlayer.core
      = (ps.getD i dfltPlayer).core := by
    rw [List.getD_eq_getElem?_getD, List.getD_eq_getElem?_getD,
      List.getElem?_map]
    rw [List.getElem?_eq_getElem hi]
    simp
  have h2 : (qs.map PlayerModel.core).getD i dfltPlayer.core
      = (qs.getD i dfltPlayer).core := by
    rw [List.getD_eq_getElem?_getD, List.getD_eq_getElem?_getD,
      List.getElem?_map]
    rw [List.getElem?_eq_getElem (hlen ▸ hi)]
    simp
  rw [← h1, ← h2, h]

theorem getD_map {α β : Type} (g : α → β) :
    ∀ (l : List α) (i : Nat) (dα : α), i < l.length →
      (l.map g).getD i (g dα) = g (l.getD i dα)
  | [], _, _, h => absurd h (by simp)
  | _ :: _, 0, _, _ => rfl
  | x :: xs, i + 1, dα, h => getD_map g xs i dα (by simpa using h)

theorem getD_mem {α : Type} : ∀ (l : List α) (i : Nat) (d : α),
    i < l.length → l.getD i d ∈ l
  | [], _, _, h => absurd h (by simp)
  | _ :: _, 0, _, _ => List.mem_cons_self _ _
  | x :: xs, i + 1, d, h =>
    List.mem_cons_of_mem x (getD_mem xs i d (by simpa using h))

theorem setIdx_getD_same {α : Type} : ∀ (l : List α) (i : Nat) (d : α),
    setIdx l i (l.getD i d) = l
  | [], _, _ => rfl
  | _ :: _, 0, _ => rfl
  | x :: xs, i + 1, d => by
    have ih := setIdx_getD_same xs i d
    show x :: setIdx xs i ((x :: xs).getD (i + 1) d) = x :: xs
    rw [List.getD_cons_succ, ih]

theorem assignPlacements_map_team :
    ∀ (ps ps1 : List PlayerModel) (toks : List String),
      assignPlacements ps toks = some ps1 →
      ps1.map (fun p => p.team) = ps.map (fun p => p.team)
  | [], ps1, toks, h => by
    simp [assignPlacements] at h
    simp [← h]
  | p :: ps, ps1, toks, h => by
    simp only [assignPlacements] at h
    cases htk : pyIndex toks p.team with
    | none => simp [htk] at h
    | some tk =>
      simp only [htk] at h
      cases hv : tk.toInt? with
      | none => simp [hv] at h
      | some v =>
        simp only [hv] at h
        cases hrest : assignPlacements ps toks with
        | none => simp [hrest] at h
        | some rest =>
          simp only [hrest, Option.some.injEq] at h
          subst h
          simp [assignPlacements_map_team ps rest toks hrest]

theorem numTeams_assignPlacements {ps ps1 : List PlayerModel} {toks : List String}
    (h : assignPlacements ps toks = some ps1) : numTeams ps1 = numTeams ps := by
  unfold numTeams
  rw [assignPlacements_map_team ps ps1 toks h]

/-- The team list of the player list produced by the slot edit in
`assign_discord_id` is unchanged. -/
theorem numTeams_setIdx_same_team {ps : List PlayerModel} {i : Nat}
    {p' : PlayerModel} (hi : i < ps.length)
    (hteam : p'.team = (ps.getD i dfltPlayer).team) :
    numTeams (setIdx ps i p') = numTeams ps := by
  unfold numTeams
  rw [map_setIdx, hteam]
  rw [← getD_map (fun p => p.team) ps i dfltPlayer hi]
  rw [setIdx_getD_same]

/-- Inserting into a team that already appears does not change the number
of distinct teams. -/
theorem numTeams_insertAt_dup {ps : List PlayerModel} (n : Nat) {i : Nat}
    {p' : PlayerModel} (hi : i < ps.length)
    (hteam : p'.team = (ps.getD i dfltPlayer).team) :
    numTeams (insertAt ps n p') = numTeams ps := by
  unfold numTeams
  rw [map_insertAt]
  exact dedup_length_insertAt_of_mem n
    (by rw [hteam, ← getD_map (fun p => p.team) ps i dfltPlayer hi]
        exact getD_mem _ i _ (by simpa using hi))

theorem numTeams_removeAt_le (ps : List PlayerModel) (i : Nat) :
    numTeams (removeAt ps i) ≤ numTeams ps := by
  unfold numTeams
  rw [map_removeAt]
  exact dedup_length_le_of_subset fun x hx =>
    mem_removeAt _ i x hx


theorem getDeltaField_setDeltaField (fld : DeltaField) (p : PlayerModel) (v : Int) :
    getDeltaField fld (setDeltaField fld p v) = v := by
  cases fld <;> rfl

/-! ### Claim theorems -/

/-- Claim C2: in the rating update for each stat space, every player's
stored delta is `round(posterior mean - prior mean)` when the player has
a bound identity and `0` otherwise, overlaid with the policy rules: a
substitute-in player's stored delta is `max(configured minimum sub
credit, computed delta)` and hence never below the floor, a
substituted-out player's stored delta is `min(computed delta, 0)` and
hence never positive, and every other player's delta is the computed
delta unchanged.  (Rows are classified in the source's branch order, so
the substitute-in rule takes precedence.) -/
theorem update_delta_policy (s : Settings) (env : TSEnv)
    (m m' : MatchModel) (ranking post' : List StatModel) (fld : DeltaField)
    (h : update_player_stats s env m ranking fld = some (m', post'))
    (i : Nat) (hi : i < m.players.length) :
    (getDeltaField fld (m'.players.getD i dfltPlayer)
      = (if (m.players.getD i dfltPlayer).is_sub then
           max s.min_points_for_subs (computedDelta env m ranking i)
         else if (m.players.getD i dfltPlayer).subbed_out then
           min (computedDelta env m ranking i) 0
         else computedDelta env m ranking i))
    ∧ ((m.players.getD i dfltPlayer).is_sub = true →
        s.min_points_for_subs ≤ getDeltaField fld (m'.players.getD i dfltPlayer))
    ∧ ((m.players.getD i dfltPlayer).is_sub = false →
        (m.players.getD i dfltPlayer).subbed_out = true →
        getDeltaField fld (m'.players.getD i dfltPlayer) ≤ 0)
    ∧ ((m.players.getD i dfltPlayer).is_sub = false →
        (m.players.getD i dfltPlayer).subbed_out = false →
        getDeltaField fld (m'.players.getD i dfltPlayer)
          = computedDelta env m ranking i) := by
  have ht : ¬ numTeams m.players ≤ 1 := by
    have := (update_player_stats_shape h).2.2
    omega
  unfold update_player_stats at h
  rw [if_neg ht] at h
  simp only [Option.some.injEq, Prod.mk.injEq] at h
  obtain ⟨hm, -⟩ := h
  have hget : m'.players.getD i dfltPlayer
      = setDeltaField fld (m.players.getD i dfltPlayer)
          (if (m.players.getD i dfltPlayer).is_sub then
             max s.min_points_for_subs (computedDelta env m ranking i)
           else if (m.players.getD i dfltPlayer).subbed_out then
             (if computedDelta env m ranking i < 0 then computedDelta env m ranking i else 0)
           else computedDelta env m ranking i) := by
    rw [← hm]
    show (mapWithIndex _ m.players).getD i dfltPlayer = _
    rw [getD_mapWithIndex _ dfltPlayer dfltPlayer m.players i hi]
    simp only [computedDelta]
  have hmin : (if computedDelta env m ranking i < 0 then computedDelta env m ranking i else 0)
      = min (computedDelta env m ranking i) 0 := by
    by_cases hd : computedDelta env m ranking i < 0
    · rw [if_pos hd, min_eq_left (le_of_lt hd)]
    · rw [if_neg hd, min_eq_right (not_lt.1 hd)]
  rw [hmin] at hget
  refine ⟨?_, ?_, ?_, ?_⟩
  · rw [hget, getDeltaField_setDeltaField]
  · intro h1
    rw [hget, getDeltaField_setDeltaField, if_pos h1]
    exact le_max_left _ _
  · intro h1 h2
    rw [hget, getDeltaField_setDeltaField, if_neg (by rw [h1]; simp), if_pos h2]
    exact min_le_right _ _
  · intro h1 h2
    rw [hget, getDeltaField_setDeltaField, if_neg (by rw [h1]; simp),
      if_neg (by rw [h2]; simp)]

theorem update_delta_policy_witness :
    (update_player_stats sW idRate mAB rankW .delta = some (updWres.1, updWres.2))
    ∧ 0 < mAB.players.length
    ∧ (getDeltaField .delta (updWres.1.players.getD 0 dfltPlayer)
        = (if (mAB.players.getD 0 dfltPlayer).is_sub then
             max sW.min_points_for_subs (computedDelta idRate mAB rankW 0)
           else if (mAB.players.getD 0 dfltPlayer).subbed_out then
             min (computedDelta idRate mAB rankW 0) 0
           else computedDelta idRate mAB rankW 0)) :=
  ⟨by decide, by decide,
    (update_delta_policy sW idRate mAB updWres.1 rankW updWres.2 .delta
      (by decide) 0 (by decide)).1⟩

/-- Claim C9: a change-order call whose space-separated token count
differs from the number of distinct teams of the stored match is rejected
with a validation error and the database — in particular the stored
pending record — is completely unchanged. -/
theorem change_order_rejects_wrong_length (s : Settings) (env : TSEnv)
    (db : DB) (match_id : Nat) (new_order msgId : String) (m : MatchModel)
    (hfind : findPending db match_id = some m)
    (hlen : (pySplitSpace new_order).length ≠ numTeams m.players) :
    change_order s env db match_id new_order msgId
      = (.error (.matchService "New order length does not match number of players/teams"), db) := by
  unfold change_order
  rw [hfind]
  dsimp only
  rw [if_pos hlen]

theorem change_order_rejects_wrong_length_witness :
    (findPending db0 0 = some mAB)
    ∧ ((pySplitSpace "1 2 3").length ≠ numTeams mAB.players)
    ∧ change_order sW idRate db0 0 "1 2 3" "msg"
        = (.error (.matchService "New order length does not match number of players/teams"), db0) :=
  ⟨by decide, by decide,
    change_order_rejects_wrong_length sW idRate db0 0 "1 2 3" "msg" mAB
      (by decide) (by decide)⟩


theorem map_team_match_id_to_discord (dir : Directory) (m : MatchModel) :
    (match_id_to_discord dir m).players.map (fun p => p.team)
      = m.players.map (fun p => p.team) := by
  unfold match_id_to_discord
  dsimp only
  rw [List.map_map]
  refine List.map_congr_left fun p _ => ?_
  simp only [Function.comp_apply]
  cases hp : p.steam_id with
  | none => rfl
  | some sid =>
    by_cases hc : sid ≠ "" ∧ sid ≠ "-1" <;> simp [hc]

theorem numTeams_match_id_to_discord (dir : Directory) (m : MatchModel) :
    numTeams (match_id_to_discord dir m).players = numTeams m.players := by
  unfold numTeams
  rw [map_team_match_id_to_discord]

/-- Claim C4: a match whose players span at most one distinct team is
rejected before any skill computation — `update_player_stats` returns no
rating data — and every operation that invokes the rating update on such
a stored match (reorder, bind identity, insert substitute, remove
substitute, approval, and ingestion when the parsed content is new)
fails with an error and leaves the database, hence the stored players,
unchanged. -/
theorem single_team_rating_noop (s : Settings) (env : TSEnv) (dir : Directory)
    (oracle : Nat → Bool) (db : DB) (match_id : Nat) (m : MatchModel)
    (ranking : List StatModel) (fld : DeltaField)
    (new_order msgId did dout approver : String) (pid subi subo : Int) (now : Nat)
    (parsed : ParsedSave) (reporter : String) (cloud : Bool)
    (hfind : findPending db match_id = some m)
    (hteams : numTeams m.players ≤ 1) :
    update_player_stats s env m ranking fld = none
    ∧ ((change_order s env db match_id new_order msgId).1.isOk = false
        ∧ (change_order s env db match_id new_order msgId).2 = db)
    ∧ ((assign_discord_id s env dir db match_id pid did msgId).1.isOk = false
        ∧ (assign_discord_id s env dir db match_id pid did msgId).2 = db)
    ∧ ((assign_sub s env dir db match_id subi dout msgId).1.isOk = false
        ∧ (assign_sub s env dir db match_id subi dout msgId).2 = db)
    ∧ ((remove_sub s env db match_id subo msgId).1.isOk = false
        ∧ (remove_sub s env db match_id subo msgId).2 = db)
    ∧ ((approve_match s env oracle db match_id approver now).1.isOk = false
        ∧ (approve_match s env oracle db match_id approver now).2 = db)
    ∧ (numTeams (parsed.players.map ParsedPlayer.toPlayer) ≤ 1 →
        findByHash db (save_file_hash parsed) = none →
        (create_from_save s env dir db parsed reporter cloud msgId).1.isOk = false
        ∧ (create_from_save s env dir db parsed reporter cloud msgId).2 = db) := by
  refine ⟨(update_player_stats_eq_none_iff s env m ranking fld).2 hteams, ?_, ?_, ?_, ?_, ?_, ?_⟩
  · unfold change_order
    rw [hfind]
    dsimp only
    split
    · exact ⟨rfl, rfl⟩
    · split
      · exact ⟨rfl, rfl⟩
      · rename_i ps1 hap
        split
        · exact ⟨rfl, rfl⟩
        all_goals
          rename_i heq
          have h2 : 1 < numTeams ps1 := (update_player_stats_shape heq).2.2
          have h3 := numTeams_assignPlacements hap
          exact absurd hteams (by omega)
  · unfold assign_discord_id
    rw [hfind]
    dsimp only
    split
    · exact ⟨rfl, rfl⟩
    · rename_i hrange
      have hidx : (pid - 1).toNat < m.players.length := by
        rw [not_or] at hrange
        omega
      split
      · exact ⟨rfl, rfl⟩
      all_goals
        rename_i heq
        have h2 : 1 < numTeams (setIdx m.players (pid - 1).toNat
            (boundPlayer (m.players.getD (pid - 1).toNat dfltPlayer) did
              (dir.discord_to_steam did))) :=
          (update_player_stats_shape heq).2.2
        have h4 := numTeams_setIdx_same_team hidx
          (show (boundPlayer (m.players.getD (pid - 1).toNat dfltPlayer) did
              (dir.discord_to_steam did)).team
            = (m.players.getD (pid - 1).toNat dfltPlayer).team from rfl)
        exact absurd hteams (by omega)
  · unfold assign_sub
    rw [hfind]
    dsimp only
    split
    · exact ⟨rfl, rfl⟩
    · rename_i hrange
      have hidx : subi.toNat < m.players.length := by
        rw [not_or] at hrange
        omega
      have hidx1 : subi.toNat < (setIdx m.players subi.toNat
          (markSubIn (m.players.getD subi.toNat dfltPlayer))).length := by
        rw [length_setIdx]
        exact hidx
      split
      · exact ⟨rfl, rfl⟩
      all_goals
        rename_i heq
        have h2 : 1 < numTeams (insertAt
            (setIdx m.players subi.toNat (markSubIn (m.players.getD subi.toNat dfltPlayer)))
            (subi.toNat + 1)
            (subOutRow ((setIdx m.players subi.toNat
                (markSubIn (m.players.getD subi.toNat dfltPlayer))).getD subi.toNat dfltPlayer)
              (dir.discord_to_steam dout) dout)) :=
          (update_player_stats_shape heq).2.2
        have h4 := numTeams_insertAt_dup (subi.toNat + 1) hidx1
          (show (subOutRow ((setIdx m.players subi.toNat
                (markSubIn (m.players.getD subi.toNat dfltPlayer))).getD subi.toNat dfltPlayer)
              (dir.discord_to_steam dout) dout).team
            = ((setIdx m.players subi.toNat
                (markSubIn (m.players.getD subi.toNat dfltPlayer))).getD subi.toNat dfltPlayer).team
            from rfl)
        have h5 := numTeams_setIdx_same_team hidx
          (show (markSubIn (m.players.getD subi.toNat dfltPlayer)).team
            = (m.players.getD subi.toNat dfltPlayer).team from rfl)
        exact absurd hteams (by omega)
  · unfold remove_sub
    rw [hfind]
    dsimp only
    split
    · exact ⟨rfl, rfl⟩
    · rename_i hrange
      have hidx : subo.toNat - 1 < m.players.length := by
        rw [not_or, not_or] at hrange
        omega
      split
      · exact ⟨rfl, rfl⟩
      all_goals
        rename_i heq
        have h2 : 1 < numTeams (removeAt (setIdx m.players (subo.toNat - 1)
            (clearSubIn (m.players.getD (subo.toNat - 1) dfltPlayer))) subo.toNat) :=
          (update_player_stats_shape heq).2.2
        have h3 := numTeams_removeAt_le (setIdx m.players (subo.toNat - 1)
          (clearSubIn (m.players.getD (subo.toNat - 1) dfltPlayer))) subo.toNat
        have h4 := numTeams_setIdx_same_team hidx
          (show (clearSubIn (m.players.getD (subo.toNat - 1) dfltPlayer)).team
            = (m.players.getD (subo.toNat - 1) dfltPlayer).team from rfl)
        exact absurd hteams (by omega)
  · unfold approve_match
    rw [hfind]
    dsimp only
    split
    · exact ⟨rfl, rfl⟩
    · split
      · exact ⟨rfl, rfl⟩
      all_goals
        rename_i heq
        have h2 : 1 < numTeams m.players := (update_player_stats_shape heq).2.2
        exact absurd hteams (by omega)
  · intro hpt hnew
    unfold create_from_save
    dsimp only
    rw [hnew]
    dsimp only
    split
    · exact ⟨rfl, rfl⟩
    all_goals
      rename_i heq
      have h2 : 1 < numTeams (match_id_to_discord dir
          (build_match parsed reporter cloud msgId (save_file_hash parsed))).players :=
        (update_player_stats_shape heq).2.2
      rw [numTeams_match_id_to_discord] at h2
      have h3 : numTeams (build_match parsed reporter cloud msgId
          (save_file_hash parsed)).players
          = numTeams (parsed.players.map ParsedPlayer.toPlayer) := rfl
      exact absurd hpt (by omega)

theorem single_team_rating_noop_witness :
    (findPending dbSingle 0 = some mSingle)
    ∧ numTeams mSingle.players ≤ 1
    ∧ update_player_stats sW idRate mSingle
        (get_players_ranking sW dbSingle mSingle false false) .delta = none
    ∧ ((change_order sW idRate dbSingle 0 "9 9" "x").1.isOk = false
        ∧ (change_order sW idRate dbSingle 0 "9 9" "x").2 = dbSingle) :=
  ⟨by decide, by decide,
    (single_team_rating_noop sW idRate dirW (fun _ => false) dbSingle 0 mSingle
      (get_players_ranking sW dbSingle mSingle false false) .delta
      "9 9" "x" "d" "o" "appr" 1 0 1 0 parsedW "rep" false
      (by decide) (by decide)).1,
    (single_team_rating_noop sW idRate dirW (fun _ => false) dbSingle 0 mSingle
      (get_players_ranking sW dbSingle mSingle false false) .delta
      "9 9" "x" "d" "o" "appr" 1 0 1 0 parsedW "rep" false
      (by decide) (by decide)).2.1⟩


/-- Claim C1: approval is atomic on failure.  For a stored pending match,
whenever `approve_match` fails for any reason — an unbound player slot,
or any transactional write (aggregate-stats upsert in any of the three
stat spaces, substitute counter, validated insert, pending delete)
failing — the whole database is unchanged: no aggregate row is touched,
no validated match is inserted, and the pending record is still stored
unchanged and retrievable; the failure is reported as an error.
Moreover an unbound player slot always makes the call fail. -/
theorem approve_match_atomicity (s : Settings) (env : TSEnv) (oracle : Nat → Bool)
    (db : DB) (match_id : Nat) (approver : String) (now : Nat) (m : MatchModel)
    (hfind : findPending db match_id = some m) :
    ((approve_match s env oracle db match_id approver now).1.isOk = false →
      (approve_match s env oracle db match_id approver now).2 = db
      ∧ findPending (approve_match s env oracle db match_id approver now).2 match_id
          = some m)
    ∧ ((m.players.any fun p => p.discord_id = none) = true →
      (approve_match s env oracle db match_id approver now).1.isOk = false) := by
  unfold approve_match
  rw [hfind]
  dsimp only
  by_cases hany : (m.players.any fun p => p.discord_id = none) = true
  · rw [if_pos hany]
    exact ⟨fun _ => ⟨rfl, hfind⟩, fun _ => rfl⟩
  · rw [if_neg hany]
    refine ⟨?_, fun hc => absurd hc hany⟩
    repeat' first
      | exact fun _ => ⟨rfl, hfind⟩
      | split
    all_goals
      intro hok
      simp [Except.isOk, Except.toBool] at hok

theorem approve_match_atomicity_witness :
    (findPending dbUnbound 0 = some mUnbound)
    ∧ ((approve_match sW idRate (fun _ => false) dbUnbound 0 "appr" 7).1.isOk = false →
        (approve_match sW idRate (fun _ => false) dbUnbound 0 "appr" 7).2 = dbUnbound
        ∧ findPending (approve_match sW idRate (fun _ => false) dbUnbound 0 "appr" 7).2 0
            = some mUnbound)
    ∧ ((mUnbound.players.any fun p => p.discord_id = none) = true →
        (approve_match sW idRate (fun _ => false) dbUnbound 0 "appr" 7).1.isOk = false) :=
  ⟨by decide,
    (approve_match_atomicity sW idRate (fun _ => false) dbUnbound 0 "appr" 7 mUnbound
      (by decide)).1,
    (approve_match_atomicity sW idRate (fun _ => false) dbUnbound 0 "appr" 7 mUnbound
      (by decide)).2⟩


theorem update_player_stats_save_file_hash {s : Settings} {env : TSEnv}
    {m m' : MatchModel} {r post : List StatModel} {fld : DeltaField}
    (h : update_player_stats s env m r fld = some (m', post)) :
    m'.save_file_hash = m.save_file_hash := by
  obtain ⟨hm, -, -⟩ := update_player_stats_shape h
  rw [hm]

/-- Claim C3: ingestion is idempotent on content.  The fingerprint is a
function of exactly the game title, the map type, and the ordered
(civilization, leader) pairs; a submission whose fingerprint matches a
stored pending match returns that record annotated as a repeat with the
database unchanged (so no rating computation and no new row); and a
successful fresh submission followed by the same submission again yields
the same pending record reference with the database unchanged. -/
theorem create_from_save_idempotent (s : Settings) (env : TSEnv) (dir : Directory)
    (db : DB) (parsed : ParsedSave) (reporter : String) (cloud : Bool)
    (msgId : String) :
    (∀ p2 : ParsedSave, parsed.game = p2.game → parsed.map_type = p2.map_type →
      parsed.players.map (fun p => (p.civ, p.leader))
        = p2.players.map (fun p => (p.civ, p.leader)) →
      save_file_hash parsed = save_file_hash p2)
    ∧ (∀ im, findByHash db (save_file_hash parsed) = some im →
        create_from_save s env dir db parsed reporter cloud msgId
          = (.ok { match_id := im.1, repeated := true, body := im.2 }, db))
    ∧ (∀ out db1, create_from_save s env dir db parsed reporter cloud msgId
          = (.ok out, db1) → out.repeated = false →
        create_from_save s env dir db1 parsed reporter cloud msgId
          = (.ok { match_id := out.match_id, repeated := true, body := out.body }, db1)) := by
  refine ⟨?_, ?_, ?_⟩
  · intro p2 hg hm hpl
    unfold save_file_hash
    rw [hg, hm]
    have h1 : parsed.players.map (fun p => p.civ ++ p.leader.getD "")
        = (parsed.players.map (fun p => (p.civ, p.leader))).map
            (fun pr => pr.1 ++ pr.2.getD "") := by
      rw [List.map_map]
      exact List.map_congr_left fun a _ => rfl
    have h2 : p2.players.map (fun p => p.civ ++ p.leader.getD "")
        = (p2.players.map (fun p => (p.civ, p.leader))).map
            (fun pr => pr.1 ++ pr.2.getD "") := by
      rw [List.map_map]
      exact List.map_congr_left fun a _ => rfl
    rw [h1, h2, hpl]
  · intro im him
    unfold create_from_save
    dsimp only
    rw [him]
  · intro out db1 hrun hrep
    unfold create_from_save at hrun
    dsimp only at hrun
    cases hfb : findByHash db (save_file_hash parsed) with
    | some im =>
      rw [hfb] at hrun
      dsimp only at hrun
      simp only [Prod.mk.injEq, Except.ok.injEq] at hrun
      rw [← hrun.1] at hrep
      simp at hrep
    | none =>
      rw [hfb] at hrun
      dsimp only at hrun
      set m1 := match_id_to_discord dir
        (build_match parsed reporter cloud msgId (save_file_hash parsed)) with hm1
      cases h1 : update_player_stats s env m1
          (get_players_ranking s db m1 false false) .delta with
      | none => rw [h1] at hrun; simp at hrun
      | some r1 =>
        obtain ⟨m2, post2⟩ := r1
        rw [h1] at hrun
        dsimp only at hrun
        cases h2 : update_player_stats s env m2
            (get_players_ranking s db m1 true false) .season_delta with
        | none => rw [h2] at hrun; simp at hrun
        | some r2 =>
          obtain ⟨m3, post3⟩ := r2
          rw [h2] at hrun
          dsimp only at hrun
          cases h3 : update_player_stats s env m3
              (get_players_ranking s db m1 false true) .combined_delta with
          | none => rw [h3] at hrun; simp at hrun
          | some r3 =>
            obtain ⟨m4, post4⟩ := r3
            rw [h3] at hrun
            dsimp only at hrun
            simp only [Prod.mk.injEq, Except.ok.injEq] at hrun
            obtain ⟨hout, hdb1⟩ := hrun
            have hm4hash : m4.save_file_hash = save_file_hash parsed := by
              rw [update_player_stats_save_file_hash h3,
                update_player_stats_save_file_hash h2,
                update_player_stats_save_file_hash h1, hm1]
              rfl
            have hfb1 : findByHash db1 (save_file_hash parsed)
                = some (db.nextId, m4) := by
              rw [← hdb1]
              unfold findByHash
              dsimp only
              rw [find?_append _ _ _ hfb]
              simp [List.find?_cons, hm4hash]
            unfold create_from_save
            dsimp only
            rw [hfb1, ← hout]

theorem create_from_save_idempotent_witness :
    (create_from_save sW idRate dirW dbEmpty parsedW "rep" false "m0"
      = (.ok crW1out, crW1.2))
    ∧ crW1out.repeated = false
    ∧ create_from_save sW idRate dirW crW1.2 parsedW "rep" false "m0"
        = (.ok { match_id := crW1out.match_id, repeated := true
               , body := crW1out.body }, crW1.2) :=
  ⟨by decide, by decide,
    (create_from_save_idempotent sW idRate dirW dbEmpty parsedW "rep" false "m0").2.2
      crW1out crW1.2 (by decide) (by decide)⟩


/-- Claim C5 (code-bug evidence): binding an identity to slot 1 of a
two-player match succeeds and recomputes all three stat spaces, but the
persisted record keeps the old `combined_delta` values (`7` and unset)
while `delta` and `season_delta` are updated — the freshly recomputed
combined-space deltas are `0` for both players.  The source computes the
combined recomputation and then omits `players.i.combined_delta` from
the `$set` document. -/
theorem assign_discord_id_drops_combined_delta :
    ((assign_discord_id sW idRate dirW dbC5 0 1 "42" "m").1.isOk = true)
    ∧ ((findPending (assign_discord_id sW idRate dirW dbC5 0 1 "42" "m").2 0).map
        (fun mm => mm.players.map fun p => p.combined_delta) = some [some 7, none])
    ∧ ((findPending (assign_discord_id sW idRate dirW dbC5 0 1 "42" "m").2 0).map
        (fun mm => mm.players.map fun p => (p.delta, p.season_delta))
        = some [(0, some 0), (0, some 0)])
    ∧ ((update_player_stats sW idRate c5mBound
          (get_players_ranking sW dbC5 c5mBound false true) .combined_delta).map
        (fun x => x.1.players.map fun p => p.combined_delta)
        = some [some 0, some 0]) := by
  exact ⟨by decide, by decide, by decide, by decide⟩

/-- Claim C6 (counterexample): the stored match has a substitute-in at
slot 0 (1-based position 1) and a substituted-out row at slot 1 (1-based
position 2).  With index 1 the call succeeds although the slot at
1-based position 1 is not substituted-out, and with index 2 the call is
rejected although the slot at 1-based position 2 is substituted-out: the
index is 0-based, contradicting the claim's 1-based reading. -/
theorem remove_sub_one_based_counterexample :
    ((remove_sub sW idRate dbSub 0 1 "m").1.isOk = true
      ∧ (mSub.players.getD 0 dfltPlayer).subbed_out = false)
    ∧ ((remove_sub sW idRate dbSub 0 2 "m").1.isOk = false
      ∧ (mSub.players.getD 1 dfltPlayer).subbed_out = true) := by
  exact ⟨⟨by decide, by decide⟩, ⟨by decide, by decide⟩⟩

/-- Claim C6 (amended): `remove_sub` treats its index as a 0-based
position into the player list that must be at least 1: the call is
rejected with a validation error and the database left unchanged when
the index is out of range (`i < 1` or `i ≥ len`) or the 0-based slot `i`
is not substituted-out; when it succeeds, the index was in range, slot
`i` was substituted-out, and the stored record's players are — up to the
recomputed delta fields — the original list with `is_sub` cleared on
slot `i - 1` and slot `i` deleted. -/
theorem remove_sub_zero_based (s : Settings) (env : TSEnv) (db : DB)
    (match_id : Nat) (m : MatchModel) (i : Int) (msgId : String)
    (hfind : findPending db match_id = some m) :
    ((i < 1 ∨ (m.players.length : Int) ≤ i
        ∨ (m.players.getD i.toNat dfltPlayer).subbed_out = false) →
      (remove_sub s env db match_id i msgId).1.isOk = false
      ∧ (remove_sub s env db match_id i msgId).2 = db)
    ∧ ((remove_sub s env db match_id i msgId).1.isOk = true →
      1 ≤ i ∧ i < (m.players.length : Int)
      ∧ (m.players.getD i.toNat dfltPlayer).subbed_out = true
      ∧ ∃ m2, findPending (remove_sub s env db match_id i msgId).2 match_id = some m2
          ∧ m2.players.map PlayerModel.core
            = (removeAt (setIdx m.players (i.toNat - 1)
                (clearSubIn (m.players.getD (i.toNat - 1) dfltPlayer))) i.toNat).map
                PlayerModel.core) := by
  unfold remove_sub
  rw [hfind]
  dsimp only
  by_cases hg : i < 1 ∨ (m.players.length : Int) ≤ i
      ∨ ¬((m.players.getD i.toNat dfltPlayer).subbed_out = true)
  · rw [if_pos hg]
    refine ⟨fun _ => ⟨rfl, rfl⟩, fun hok => ?_⟩
    simp [Except.isOk, Except.toBool] at hok
  · rw [if_neg hg]
    rw [not_or, not_or] at hg
    obtain ⟨hg1, hg2, hg3⟩ := hg
    have hsub : (m.players.getD i.toNat dfltPlayer).subbed_out = true := by
      revert hg3
      cases (m.players.getD i.toNat dfltPlayer).subbed_out <;> simp
    constructor
    · intro hbad
      rcases hbad with h | h | h
      · exact absurd h hg1
      · exact absurd h hg2
      · rw [h] at hsub
        exact Bool.noConfusion hsub
    · intro hok
      refine ⟨by omega, by omega, hsub, ?_⟩
      set ps2X := removeAt (setIdx m.players (i.toNat - 1)
        (clearSubIn (m.players.getD (i.toNat - 1) dfltPlayer))) i.toNat with hps2
      cases h1 : update_player_stats s env { m with players := ps2X }
          (get_players_ranking s db { m with players := ps2X } false false) .delta with
      | none =>
        rw [h1] at hok
        simp [Except.isOk, Except.toBool] at hok
      | some r1 =>
        obtain ⟨m2, post2⟩ := r1
        rw [h1] at hok
        dsimp only at hok ⊢
        cases h2 : update_player_stats s env m2
            (get_players_ranking s db { m with players := ps2X } true false)
            .season_delta with
        | none =>
          rw [h2] at hok
          simp [Except.isOk, Except.toBool] at hok
        | some r2 =>
          obtain ⟨m3, post3⟩ := r2
          rw [h2] at hok
          dsimp only at hok ⊢
          cases h3 : update_player_stats s env m3
              (get_players_ranking s db { m with players := ps2X } false true)
              .combined_delta with
          | none =>
            rw [h3] at hok
            simp [Except.isOk, Except.toBool] at hok
          | some r3 =>
            obtain ⟨m4, post4⟩ := r3
            rw [h3] at hok
            dsimp only at hok ⊢
            refine ⟨{ m4 with discord_messages_id_list :=
                m.discord_messages_id_list ++ [msgId] }, ?_, ?_⟩
            · exact lookupAssoc_setAssoc_self db.pending match_id _
            · show m4.players.map PlayerModel.core = ps2X.map PlayerModel.core
              rw [(update_player_stats_shape h3).2.1,
                (update_player_stats_shape h2).2.1,
                (update_player_stats_shape h1).2.1]

theorem remove_sub_zero_based_witness :
    (findPending dbSub 0 = some mSub)
    ∧ ((remove_sub sW idRate dbSub 0 1 "m").1.isOk = true →
      1 ≤ (1 : Int) ∧ (1 : Int) < (mSub.players.length : Int)
      ∧ (mSub.players.getD (1 : Int).toNat dfltPlayer).subbed_out = true
      ∧ ∃ m2, findPending (remove_sub sW idRate dbSub 0 1 "m").2 0 = some m2
          ∧ m2.players.map PlayerModel.core
            = (removeAt (setIdx mSub.players ((1 : Int).toNat - 1)
                (clearSubIn (mSub.players.getD ((1 : Int).toNat - 1) dfltPlayer)))
                (1 : Int).toNat).map PlayerModel.core) :=
  ⟨by decide, (remove_sub_zero_based sW idRate dbSub 0 mSub 1 "m" (by decide)).2⟩


/-- Branch analysis of `assign_sub`: either the call fails with the
database unchanged, or the targeted match exists, the 0-based index is
in range, the match spans at least two teams, and the stored document's
players are — up to the recomputed delta fields — the original list with
the origin slot marked substitute-in and the copied substituted-out row
inserted right after it. -/
theorem assign_sub_cases (s : Settings) (env : TSEnv) (dir : Directory) (db : DB)
    (match_id : Nat) (i : Int) (dout msgId : String) :
    ((assign_sub s env dir db match_id i dout msgId).1.isOk = false
      ∧ (assign_sub s env dir db match_id i dout msgId).2 = db)
    ∨ (∃ m, findPending db match_id = some m ∧ 0 ≤ i ∧ i.toNat < m.players.length
        ∧ 1 < numTeams m.players
        ∧ ∃ stored,
            assign_sub s env dir db match_id i dout msgId
              = (.ok stored, setPending db match_id stored)
            ∧ stored.players.map PlayerModel.core
              = (insertAt (setIdx m.players i.toNat
                    (markSubIn (m.players.getD i.toNat dfltPlayer)))
                  (i.toNat + 1)
                  (subOutRow ((setIdx m.players i.toNat
                      (markSubIn (m.players.getD i.toNat dfltPlayer))).getD i.toNat
                      dfltPlayer)
                    (dir.discord_to_steam dout) dout)).map PlayerModel.core) := by
  unfold assign_sub
  cases hf : findPending db match_id with
  | none => exact Or.inl ⟨rfl, rfl⟩
  | some m =>
    dsimp only
    by_cases hr : i < 0 ∨ (m.players.length : Int) ≤ i
    · rw [if_pos hr]
      exact Or.inl ⟨rfl, rfl⟩
    · rw [if_neg hr]
      rw [not_or] at hr
      have hidx : i.toNat < m.players.length := by omega
      have hidx1 : i.toNat < (setIdx m.players i.toNat
          (markSubIn (m.players.getD i.toNat dfltPlayer))).length := by
        rw [length_setIdx]
        exact hidx
      set ps2 := insertAt (setIdx m.players i.toNat
          (markSubIn (m.players.getD i.toNat dfltPlayer)))
        (i.toNat + 1)
        (subOutRow ((setIdx m.players i.toNat
            (markSubIn (m.players.getD i.toNat dfltPlayer))).getD i.toNat dfltPlayer)
          (dir.discord_to_steam dout) dout) with hps2
      cases h1 : update_player_stats s env { m with players := ps2 }
          (get_players_ranking s db { m with players := ps2 } false false) .delta with
      | none => exact Or.inl ⟨rfl, rfl⟩
      | some r1 =>
        obtain ⟨m2, post2⟩ := r1
        dsimp only
        cases h2 : update_player_stats s env m2
            (get_players_ranking s db { m with players := ps2 } true false)
            .season_delta with
        | none => exact Or.inl ⟨rfl, rfl⟩
        | some r2 =>
          obtain ⟨m3, post3⟩ := r2
          dsimp only
          cases h3 : update_player_stats s env m3
              (get_players_ranking s db { m with players := ps2 } false true)
              .combined_delta with
          | none => exact Or.inl ⟨rfl, rfl⟩
          | some r3 =>
            obtain ⟨m4, post4⟩ := r3
            dsimp only
            have ht : 1 < numTeams ps2 := (update_player_stats_shape h1).2.2
            have e1 : numTeams ps2 = numTeams (setIdx m.players i.toNat
                (markSubIn (m.players.getD i.toNat dfltPlayer))) :=
              numTeams_insertAt_dup (i.toNat + 1) hidx1
                (show (subOutRow ((setIdx m.players i.toNat
                    (markSubIn (m.players.getD i.toNat dfltPlayer))).getD i.toNat
                    dfltPlayer) (dir.discord_to_steam dout) dout).team
                  = ((setIdx m.players i.toNat
                    (markSubIn (m.players.getD i.toNat dfltPlayer))).getD i.toNat
                    dfltPlayer).team from rfl)
            have e2 : numTeams (setIdx m.players i.toNat
                (markSubIn (m.players.getD i.toNat dfltPlayer))) = numTeams m.players :=
              numTeams_setIdx_same_team hidx
                (show (markSubIn (m.players.getD i.toNat dfltPlayer)).team
                  = (m.players.getD i.toNat dfltPlayer).team from rfl)
            refine Or.inr ⟨m, rfl, by omega, hidx, by omega,
              { m4 with discord_messages_id_list :=
                  m.discord_messages_id_list ++ [msgId] }, rfl, ?_⟩
            show m4.players.map PlayerModel.core = ps2.map PlayerModel.core
            rw [(update_player_stats_shape h3).2.1, (update_player_stats_shape h2).2.1,
              (update_player_stats_shape h1).2.1]


/-- Claim C8: a successful substitute insertion at a valid 0-based slot
index marks the origin slot `is_sub = true` and inserts immediately
after it a new row whose civ, leader, team, placement and alive flag
exactly equal the origin slot's values at insertion time, with
`subbed_out = true` and `is_sub = false` on the inserted row. -/
theorem assign_sub_copies_origin (s : Settings) (env : TSEnv) (dir : Directory)
    (db : DB) (match_id : Nat) (m : MatchModel) (i : Int) (dout msgId : String)
    (hfind : findPending db match_id = some m)
    (hok : (assign_sub s env dir db match_id i dout msgId).1.isOk = true) :
    ∃ m1, findPending (assign_sub s env dir db match_id i dout msgId).2 match_id
        = some m1
      ∧ m1.players.length = m.players.length + 1
      ∧ (m1.players.getD i.toNat dfltPlayer).is_sub = true
      ∧ (m1.players.getD (i.toNat + 1) dfltPlayer).civ
          = (m.players.getD i.toNat dfltPlayer).civ
      ∧ (m1.players.getD (i.toNat + 1) dfltPlayer).leader
          = (m.players.getD i.toNat dfltPlayer).leader
      ∧ (m1.players.getD (i.toNat + 1) dfltPlayer).team
          = (m.players.getD i.toNat dfltPlayer).team
      ∧ (m1.players.getD (i.toNat + 1) dfltPlayer).placement
          = (m.players.getD i.toNat dfltPlayer).placement
      ∧ (m1.players.getD (i.toNat + 1) dfltPlayer).player_alive
          = (m.players.getD i.toNat dfltPlayer).player_alive
      ∧ (m1.players.getD (i.toNat + 1) dfltPlayer).subbed_out = true
      ∧ (m1.players.getD (i.toNat + 1) dfltPlayer).is_sub = false := by
  rcases assign_sub_cases s env dir db match_id i dout msgId with
    ⟨hfail, -⟩ | ⟨m', hf', hge, hidx', hteams, stored, heq, hcore⟩
  · rw [hok] at hfail
    exact Bool.noConfusion hfail
  · have hm : m' = m := by
      rw [hfind] at hf'
      exact (Option.some.inj hf').symm
    rw [hm] at hidx' hcore
    have hidx : i.toNat < m.players.length := hidx'
    set A := setIdx m.players i.toNat (markSubIn (m.players.getD i.toNat dfltPlayer))
      with hA
    have hlenA : A.length = m.players.length := length_setIdx m.players i.toNat _
    have hlen2 : stored.players.length = m.players.length + 1 := by
      have hl := congrArg List.length hcore
      simp only [List.length_map] at hl
      rw [hl, length_insertAt, hlenA]
    have hfind1 : findPending (assign_sub s env dir db match_id i dout msgId).2 match_id
        = some stored := by
      have h2 := congrArg Prod.snd heq
      rw [h2]
      exact lookupAssoc_setAssoc_self db.pending match_id stored
    have hAi : A.getD i.toNat dfltPlayer
        = markSubIn (m.players.getD i.toNat dfltPlayer) :=
      getD_setIdx_self m.players i.toNat _ dfltPlayer hidx
    have hci : (stored.players.getD i.toNat dfltPlayer).core
        = ((insertAt A (i.toNat + 1)
            (subOutRow (A.getD i.toNat dfltPlayer)
              (dir.discord_to_steam dout) dout)).getD i.toNat dfltPlayer).core :=
      getD_core hcore i.toNat (by omega)
    rw [getD_insertAt_of_lt _ _ _ _ _ (by omega) (by rw [hlenA]; omega), hAi] at hci
    have hci1 : (stored.players.getD (i.toNat + 1) dfltPlayer).core
        = ((insertAt A (i.toNat + 1)
            (subOutRow (A.getD i.toNat dfltPlayer)
              (dir.discord_to_steam dout) dout)).getD (i.toNat + 1) dfltPlayer).core :=
      getD_core hcore (i.toNat + 1) (by omega)
    rw [getD_insertAt_self _ _ _ _ (by rw [hlenA]; omega), hAi] at hci1
    exact ⟨stored, hfind1, hlen2,
      congrArg PlayerCore.is_sub hci,
      congrArg PlayerCore.civ hci1,
      congrArg PlayerCore.leader hci1,
      congrArg PlayerCore.team hci1,
      congrArg PlayerCore.placement hci1,
      congrArg PlayerCore.player_alive hci1,
      congrArg PlayerCore.subbed_out hci1,
      congrArg PlayerCore.is_sub hci1⟩

theorem assign_sub_copies_origin_witness :
    (findPending db0 0 = some mAB)
    ∧ ((assign_sub sW idRate dirW db0 0 0 "55" "m").1.isOk = true)
    ∧ ∃ m1, findPending (assign_sub sW idRate dirW db0 0 0 "55" "m").2 0 = some m1
        ∧ m1.players.length = mAB.players.length + 1
        ∧ (m1.players.getD (0 : Int).toNat dfltPlayer).is_sub = true
        ∧ (m1.players.getD ((0 : Int).toNat + 1) dfltPlayer).civ
            = (mAB.players.getD (0 : Int).toNat dfltPlayer).civ
        ∧ (m1.players.getD ((0 : Int).toNat + 1) dfltPlayer).leader
            = (mAB.players.getD (0 : Int).toNat dfltPlayer).leader
        ∧ (m1.players.getD ((0 : Int).toNat + 1) dfltPlayer).team
            = (mAB.players.getD (0 : Int).toNat dfltPlayer).team
        ∧ (m1.players.getD ((0 : Int).toNat + 1) dfltPlayer).placement
            = (mAB.players.getD (0 : Int).toNat dfltPlayer).placement
        ∧ (m1.players.getD ((0 : Int).toNat + 1) dfltPlayer).player_alive
            = (mAB.players.getD (0 : Int).toNat dfltPlayer).player_alive
        ∧ (m1.players.getD ((0 : Int).toNat + 1) dfltPlayer).subbed_out = true
        ∧ (m1.players.getD ((0 : Int).toNat + 1) dfltPlayer).is_sub = false :=
  ⟨by decide, by decide,
    assign_sub_copies_origin sW idRate dirW db0 0 mAB 0 "55" "m"
      (by decide) (by decide)⟩


/-- Success path of `remove_sub`: when the stored match exists, the index
passes the guard and the remaining players still span at least two
teams, the call replaces the stored document with one whose players are
— up to the recomputed delta fields — the original list with `is_sub`
cleared on the preceding slot and the substituted-out row deleted. -/
theorem remove_sub_ok (s : Settings) (env : TSEnv) (db : DB) (match_id : Nat)
    (m : MatchModel) (i : Int) (msgId : String)
    (hfind : findPending db match_id = some m)
    (h1 : 1 ≤ i) (h2 : i < (m.players.length : Int))
    (h3 : (m.players.getD i.toNat dfltPlayer).subbed_out = true)
    (h4 : 1 < numTeams (removeAt (setIdx m.players (i.toNat - 1)
        (clearSubIn (m.players.getD (i.toNat - 1) dfltPlayer))) i.toNat)) :
    ∃ stored, remove_sub s env db match_id i msgId
        = (.ok stored, setPending db match_id stored)
      ∧ stored.players.map PlayerModel.core
        = (removeAt (setIdx m.players (i.toNat - 1)
            (clearSubIn (m.players.getD (i.toNat - 1) dfltPlayer))) i.toNat).map
            PlayerModel.core := by
  unfold remove_sub
  rw [hfind]
  dsimp only
  rw [if_neg (by
    rw [not_or, not_or]
    exact ⟨by omega, by omega, not_not_intro h3⟩)]
  set B := removeAt (setIdx m.players (i.toNat - 1)
    (clearSubIn (m.players.getD (i.toNat - 1) dfltPlayer))) i.toNat with hB
  cases hu1 : update_player_stats s env { m with players := B }
      (get_players_ranking s db { m with players := B } false false) .delta with
  | none =>
    have h5 : numTeams B ≤ 1 :=
      (update_player_stats_eq_none_iff s env { m with players := B } _ _).1 hu1
    exact absurd h4 (by omega)
  | some r1 =>
    obtain ⟨m2, post2⟩ := r1
    dsimp only
    have hc1 : m2.players.map PlayerModel.core = B.map PlayerModel.core :=
      (update_player_stats_shape hu1).2.1
    have he1 : numTeams m2.players = numTeams B := numTeams_eq_of_core_eq hc1
    cases hu2 : update_player_stats s env m2
        (get_players_ranking s db { m with players := B } true false)
        .season_delta with
    | none =>
      have h5 : numTeams m2.players ≤ 1 :=
        (update_player_stats_eq_none_iff s env m2 _ _).1 hu2
      exact absurd h4 (by omega)
    | some r2 =>
      obtain ⟨m3, post3⟩ := r2
      dsimp only
      have hc2 : m3.players.map PlayerModel.core = m2.players.map PlayerModel.core :=
        (update_player_stats_shape hu2).2.1
      have he2 : numTeams m3.players = numTeams m2.players := numTeams_eq_of_core_eq hc2
      cases hu3 : update_player_stats s env m3
          (get_players_ranking s db { m with players := B } false true)
          .combined_delta with
      | none =>
        have h5 : numTeams m3.players ≤ 1 :=
          (update_player_stats_eq_none_iff s env m3 _ _).1 hu3
        exact absurd h4 (by omega)
      | some r3 =>
        obtain ⟨m4, post4⟩ := r3
        dsimp only
        refine ⟨{ m4 with discord_messages_id_list :=
            m.discord_messages_id_list ++ [msgId] }, rfl, ?_⟩
        show m4.players.map PlayerModel.core = B.map PlayerModel.core
        rw [(update_player_stats_shape hu3).2.1, (update_player_stats_shape hu2).2.1,
          (update_player_stats_shape hu1).2.1]


/-- Claim C7: a successful insert-substitute at 0-based slot `i` followed
by remove-substitute on the resulting substituted-out slot `i + 1`
succeeds, restores the original player count, and leaves `is_sub = false`
on the origin slot — in particular the round trip is the identity on the
list length and, whenever the origin slot's `is_sub` flag was clear
before the insertion, on that flag. -/
theorem insert_remove_roundtrip (s : Settings) (env : TSEnv) (dir : Directory)
    (db : DB) (match_id : Nat) (m : MatchModel) (i : Int) (dout msg1 msg2 : String)
    (hfind : findPending db match_id = some m)
    (hok : (assign_sub s env dir db match_id i dout msg1).1.isOk = true) :
    (remove_sub s env (assign_sub s env dir db match_id i dout msg1).2 match_id
        (i + 1) msg2).1.isOk = true
    ∧ ∃ m2, findPending (remove_sub s env
          (assign_sub s env dir db match_id i dout msg1).2 match_id
          (i + 1) msg2).2 match_id = some m2
        ∧ m2.players.length = m.players.length
        ∧ (m2.players.getD i.toNat dfltPlayer).is_sub = false
        ∧ ((m.players.getD i.toNat dfltPlayer).is_sub = false →
            (m2.players.getD i.toNat dfltPlayer).is_sub
              = (m.players.getD i.toNat dfltPlayer).is_sub) := by
  rcases assign_sub_cases s env dir db match_id i dout msg1 with
    ⟨hfail, -⟩ | ⟨m', hf', hge, hidx', hteams, stored, heq, hcore⟩
  · rw [hok] at hfail
    exact Bool.noConfusion hfail
  · have hm : m' = m := by
      rw [hfind] at hf'
      exact (Option.some.inj hf').symm
    rw [hm] at hidx' hcore hteams
    have hidx : i.toNat < m.players.length := hidx'
    set A := setIdx m.players i.toNat (markSubIn (m.players.getD i.toNat dfltPlayer))
      with hA
    have hlenA : A.length = m.players.length := length_setIdx m.players i.toNat _
    have hdb1 : (assign_sub s env dir db match_id i dout msg1).2
        = setPending db match_id stored := congrArg Prod.snd heq
    have hfind1 : findPending (assign_sub s env dir db match_id i dout msg1).2 match_id
        = some stored := by
      rw [hdb1]
      exact lookupAssoc_setAssoc_self db.pending match_id stored
    have hlen2 : stored.players.length = m.players.length + 1 := by
      have hl := congrArg List.length hcore
      simp only [List.length_map] at hl
      rw [hl, length_insertAt, hlenA]
    have hnat : (i + 1).toNat = i.toNat + 1 := by omega
    have hnat2 : (i + 1).toNat - 1 = i.toNat := by omega
    have hAi : A.getD i.toNat dfltPlayer
        = markSubIn (m.players.getD i.toNat dfltPlayer) :=
      getD_setIdx_self m.players i.toNat _ dfltPlayer hidx
    have hci1 : (stored.players.getD (i.toNat + 1) dfltPlayer).core
        = ((insertAt A (i.toNat + 1)
            (subOutRow (A.getD i.toNat dfltPlayer)
              (dir.discord_to_steam dout) dout)).getD (i.toNat + 1) dfltPlayer).core :=
      getD_core hcore (i.toNat + 1) (by omega)
    rw [getD_insertAt_self _ _ _ _ (by rw [hlenA]; omega)] at hci1
    have hsub1 : (stored.players.getD (i + 1).toNat dfltPlayer).subbed_out = true := by
      rw [hnat]
      exact congrArg PlayerCore.subbed_out hci1
    have hmapB1 : (setIdx stored.players i.toNat
        (clearSubIn (stored.players.getD i.toNat dfltPlayer))).map (fun p => p.team)
        = stored.players.map (fun p => p.team) := by
      rw [map_setIdx]
      have hgm := getD_map (fun p => p.team) stored.players i.toNat dfltPlayer (by omega)
      have hteamval : (clearSubIn (stored.players.getD i.toNat dfltPlayer)).team
          = (stored.players.map (fun p => p.team)).getD i.toNat 0 := hgm.symm
      rw [hteamval, setIdx_getD_same]
    have hmapStored : stored.players.map (fun p => p.team)
        = insertAt (A.map (fun p => p.team)) (i.toNat + 1)
            ((A.getD i.toNat dfltPlayer).team) := by
      rw [core_map_team hcore, map_insertAt]
      rfl
    have hmapA : A.map (fun p => p.team) = m.players.map (fun p => p.team) := by
      rw [hA, map_setIdx]
      have hgm := getD_map (fun p => p.team) m.players i.toNat dfltPlayer hidx
      rw [show (markSubIn (m.players.getD i.toNat dfltPlayer)).team
          = (m.players.map (fun p => p.team)).getD i.toNat 0 from hgm.symm,
        setIdx_getD_same]
    have h4 : 1 < numTeams (removeAt (setIdx stored.players ((i + 1).toNat - 1)
        (clearSubIn (stored.players.getD ((i + 1).toNat - 1) dfltPlayer)))
        (i + 1).toNat) := by
      rw [hnat2, hnat]
      have he : numTeams (removeAt (setIdx stored.players i.toNat
          (clearSubIn (stored.players.getD i.toNat dfltPlayer))) (i.toNat + 1))
          = numTeams m.players := by
        unfold numTeams
        rw [map_removeAt, hmapB1, hmapStored,
          removeAt_insertAt _ _ _ (by rw [List.length_map, hlenA]; omega), hmapA]
      omega
    obtain ⟨stored2, heq2, hcore2⟩ := remove_sub_ok s env
      (assign_sub s env dir db match_id i dout msg1).2 match_id stored (i + 1) msg2
      hfind1 (by omega) (by omega) hsub1 h4
    rw [hnat2, hnat] at hcore2
    have hlenB1 : (setIdx stored.players i.toNat
        (clearSubIn (stored.players.getD i.toNat dfltPlayer))).length
        = m.players.length + 1 := by
      rw [length_setIdx, hlen2]
    have hlen3 : stored2.players.length = m.players.length := by
      have hl := congrArg List.length hcore2
      simp only [List.length_map] at hl
      rw [hl, length_removeAt _ _ (by rw [hlenB1]; omega), hlenB1]
      omega
    have hcf : (stored2.players.getD i.toNat dfltPlayer).core
        = ((removeAt (setIdx stored.players i.toNat
            (clearSubIn (stored.players.getD i.toNat dfltPlayer)))
            (i.toNat + 1)).getD i.toNat dfltPlayer).core :=
      getD_core hcore2 i.toNat (by omega)
    rw [getD_removeAt_of_lt _ _ _ _ (by omega),
      getD_setIdx_self stored.players i.toNat _ dfltPlayer (by omega)] at hcf
    have hisub : (stored2.players.getD i.toNat dfltPlayer).is_sub = false :=
      congrArg PlayerCore.is_sub hcf
    refine ⟨by rw [heq2]; rfl, stored2, ?_, hlen3, hisub, fun h => by rw [hisub, h]⟩
    rw [congrArg Prod.snd heq2]
    exact lookupAssoc_setAssoc_self _ match_id stored2

theorem insert_remove_roundtrip_witness :
    (findPending db0 0 = some mAB)
    ∧ ((assign_sub sW idRate dirW db0 0 0 "55" "m1").1.isOk = true)
    ∧ ((remove_sub sW idRate (assign_sub sW idRate dirW db0 0 0 "55" "m1").2 0
        ((0 : Int) + 1) "m2").1.isOk = true
      ∧ ∃ m2, findPending (remove_sub sW idRate
            (assign_sub sW idRate dirW db0 0 0 "55" "m1").2 0
            ((0 : Int) + 1) "m2").2 0 = some m2
          ∧ m2.players.length = mAB.players.length
          ∧ (m2.players.getD (0 : Int).toNat dfltPlayer).is_sub = false
          ∧ ((mAB.players.getD (0 : Int).toNat dfltPlayer).is_sub = false →
              (m2.players.getD (0 : Int).toNat dfltPlayer).is_sub
                = (mAB.players.getD (0 : Int).toNat dfltPlayer).is_sub)) :=
  ⟨by decide, by decide,
    insert_remove_roundtrip sW idRate dirW db0 0 mAB 0 "55" "m1" "m2"
      (by decide) (by decide)⟩

/-! ### The substitution-flag invariant: helper lemmas -/

theorem all_snd_lookupAssoc {K A : Type} [DecidableEq K] (p : A → Bool) :
    ∀ (l : List (K × A)) (k : K) (a : A),
      l.all (fun ia => p ia.2) = true → lookupAssoc l k = some a → p a = true
  | [], _, _, _, h => by simp [lookupAssoc] at h
  | (k', a') :: rest, k, a, hall, h => by
    rw [List.all_cons, Bool.and_eq_true] at hall
    unfold lookupAssoc at h
    by_cases hk : k' = k
    · rw [if_pos hk, Option.some.injEq] at h
      rw [← h]
      exact hall.1
    · rw [if_neg hk] at h
      exact all_snd_lookupAssoc p rest k a hall.2 h

theorem all_snd_setAssoc {K A : Type} [DecidableEq K] (p : A → Bool) :
    ∀ (l : List (K × A)) (k : K) (a : A),
      l.all (fun ia => p ia.2) = true → p a = true →
      (setAssoc l k a).all (fun ia => p ia.2) = true
  | [], k, a, _, ha => by simp [setAssoc, ha]
  | (k', a') :: rest, k, a, hall, ha => by
    rw [List.all_cons, Bool.and_eq_true] at hall
    unfold setAssoc
    by_cases hk : k' = k
    · rw [if_pos hk, List.all_cons, Bool.and_eq_true]
      exact ⟨ha, hall.2⟩
    · rw [if_neg hk, List.all_cons, Bool.and_eq_true]
      exact ⟨hall.1, all_snd_setAssoc p rest k a hall.2 ha⟩

theorem matchFlagsOK_of_findPending {db : DB} {id : Nat} {m : MatchModel}
    (hdb : pendingFlagsOK db = true) (hf : findPending db id = some m) :
    m.players.all rowFlagsOK = true :=
  all_snd_lookupAssoc matchFlagsOK db.pending id m hdb hf

theorem pendingFlagsOK_setPending {db : DB} (id : Nat) {m : MatchModel}
    (hdb : pendingFlagsOK db = true) (hm : m.players.all rowFlagsOK = true) :
    pendingFlagsOK (setPending db id m) = true :=
  all_snd_setAssoc matchFlagsOK db.pending id m hdb hm

theorem all_map_comp {α β : Type} (l : List α) (g : α → β) (p : β → Bool) :
    (l.map g).all p = l.all fun a => p (g a) := by
  induction l with
  | nil => rfl
  | cons x xs ih => simp only [List.map_cons, List.all_cons, ih]

theorem all_rowFlagsOK_of_core_map {ps qs : List PlayerModel}
    (h : ps.map PlayerModel.core = qs.map PlayerModel.core) :
    ps.all rowFlagsOK = qs.all rowFlagsOK := by
  have h1 : ∀ rs : List PlayerModel,
      rs.all rowFlagsOK
        = (rs.map PlayerModel.core).all fun c => !(c.is_sub && c.subbed_out) := by
    intro rs
    rw [all_map_comp]
    rfl
  rw [h1 ps, h1 qs, h]

theorem core_map_triple {s : Settings} {env : TSEnv} {m1 m2 m3 m4 : MatchModel}
    {r rs rc p2 p3 p4 : List StatModel}
    (h2 : update_player_stats s env m1 r .delta = some (m2, p2))
    (h3 : update_player_stats s env m2 rs .season_delta = some (m3, p3))
    (h4 : update_player_stats s env m3 rc .combined_delta = some (m4, p4)) :
    m4.players.map PlayerModel.core = m1.players.map PlayerModel.core := by
  rw [(update_player_stats_shape h4).2.1, (update_player_stats_shape h3).2.1,
    (update_player_stats_shape h2).2.1]

theorem all_getD {α : Type} (q : α → Bool) (l : List α) (i : Nat) (d : α)
    (hl : l.all q = true) (hd : q d = true) : q (l.getD i d) = true := by
  by_cases hi : i < l.length
  · exact List.all_eq_true.1 hl _ (getD_mem l i d hi)
  · rw [List.getD_eq_default _ _ (by omega)]
    exact hd

theorem all_mapWithIndexFrom_of_imp {α : Type} (f : Nat → α → α) (q : α → Bool)
    (hf : ∀ i a, q a = true → q (f i a) = true) : ∀ (n : Nat) (l : List α),
    l.all q = true → (mapWithIndexFrom f n l).all q = true
  | _, [], _ => rfl
  | n, x :: xs, hl => by
    rw [List.all_cons, Bool.and_eq_true] at hl
    simp only [mapWithIndexFrom, List.all_cons, Bool.and_eq_true]
    exact ⟨hf n x hl.1, all_mapWithIndexFrom_of_imp f q hf (n + 1) xs hl.2⟩

theorem all_rowFlagsOK_mergeOrderChanges (stored recomputed : List PlayerModel)
    (h : stored.all rowFlagsOK = true) :
    (mergeOrderChanges stored recomputed).all rowFlagsOK = true := by
  unfold mergeOrderChanges
  rw [List.all_eq_true]
  intro x hx
  rw [List.mem_map] at hx
  obtain ⟨op, hop, hxe⟩ := hx
  obtain ⟨p, w⟩ := op
  rw [← hxe]
  exact List.all_eq_true.1 h p (List.of_mem_zip hop).1

theorem all_rowFlagsOK_mergeAssignChanges (idx : Nat) (did : String)
    (steam : Option String) (stored recomputed : List PlayerModel)
    (h : stored.all rowFlagsOK = true) :
    (mergeAssignChanges idx did steam stored recomputed).all rowFlagsOK = true := by
  unfold mergeAssignChanges mapWithIndex
  refine all_mapWithIndexFrom_of_imp _ rowFlagsOK (fun i a ha => ?_) 0 stored h
  dsimp only
  by_cases hi : i = idx
  · rw [if_pos hi]
    exact ha
  · rw [if_neg hi]
    exact ha

theorem all_rowFlagsOK_match_id_to_discord (dir : Directory) (m : MatchModel) :
    (match_id_to_discord dir m).players.all rowFlagsOK = m.players.all rowFlagsOK := by
  unfold match_id_to_discord
  dsimp only
  rw [all_map_comp]
  congr 1
  funext p
  cases hp : p.steam_id with
  | none => rfl
  | some sid =>
    by_cases hc : sid ≠ "" ∧ sid ≠ "-1" <;> simp [hc, rowFlagsOK]

theorem all_rowFlagsOK_toPlayer (ps : List ParsedPlayer) :
    (ps.map ParsedPlayer.toPlayer).all rowFlagsOK = true := by
  rw [all_map_comp, List.all_eq_true]
  intro a _
  rfl

theorem pendingFlagsOK_append_ids (db : DB) (id : Nat) (msgs : List String)
    (hdb : pendingFlagsOK db = true) :
    pendingFlagsOK (append_discord_message_id_list db id msgs).2 = true := by
  unfold append_discord_message_id_list
  cases hf : findPending db id with
  | none => exact hdb
  | some m =>
    dsimp only
    apply pendingFlagsOK_setPending id hdb
    have hm := matchFlagsOK_of_findPending hdb hf
    exact hm

theorem pendingFlagsOK_trigger_quit (db : DB) (id : Nat) (quitter msg : String)
    (hdb : pendingFlagsOK db = true) :
    pendingFlagsOK (trigger_quit db id quitter msg).2 = true := by
  unfold trigger_quit
  cases hf : findPending db id with
  | none => exact hdb
  | some m =>
    dsimp only
    have hm : m.players.all rowFlagsOK = true := matchFlagsOK_of_findPending hdb hf
    cases hidx : m.players.findIdx? (fun p => p.discord_id = some quitter) with
    | none =>
      apply pendingFlagsOK_setPending id hdb
      exact hm
    | some i =>
      apply pendingFlagsOK_setPending id hdb
      dsimp only
      apply all_setIdx rowFlagsOK m.players i _ hm
      exact all_getD rowFlagsOK m.players i dfltPlayer hm rfl

theorem pendingFlagsOK_assign_sub (s : Settings) (env : TSEnv) (dir : Directory)
    (db : DB) (id : Nat) (i : Int) (dout msg : String)
    (hdb : pendingFlagsOK db = true)
    (hsafe : ∀ m, findPending db id = some m →
      (m.players.getD i.toNat dfltPlayer).subbed_out = false) :
    pendingFlagsOK (assign_sub s env dir db id i dout msg).2 = true := by
  rcases assign_sub_cases s env dir db id i dout msg with
    ⟨-, hsame⟩ | ⟨m, hf, -, -, -, stored, heq, hcore⟩
  · rw [hsame]
    exact hdb
  · rw [congrArg Prod.snd heq]
    apply pendingFlagsOK_setPending id hdb
    rw [all_rowFlagsOK_of_core_map hcore]
    refine all_insertAt rowFlagsOK _ _ _ ?_ ?_
    · refine all_setIdx rowFlagsOK m.players i.toNat _
        (matchFlagsOK_of_findPending hdb hf) ?_
      simp only [rowFlagsOK, markSubIn]
      have hso := hsafe m hf
      simp only [Bool.not_eq_true', Bool.and_eq_false_iff]
      exact Or.inr hso
    · rfl

theorem pendingFlagsOK_remove_sub (s : Settings) (env : TSEnv) (db : DB)
    (id : Nat) (i : Int) (msg : String) (hdb : pendingFlagsOK db = true) :
    pendingFlagsOK (remove_sub s env db id i msg).2 = true := by
  unfold remove_sub
  cases hf : findPending db id with
  | none => exact hdb
  | some m =>
    dsimp only
    split
    · exact hdb
    · have hm : m.players.all rowFlagsOK = true := matchFlagsOK_of_findPending hdb hf
      set B := removeAt (setIdx m.players (i.toNat - 1)
        (clearSubIn (m.players.getD (i.toNat - 1) dfltPlayer))) i.toNat with hB
      have hBall : B.all rowFlagsOK = true := by
        rw [hB]
        refine all_removeAt rowFlagsOK _ _ ?_
        exact all_setIdx rowFlagsOK m.players (i.toNat - 1) _ hm rfl
      cases hu1 : update_player_stats s env { m with players := B }
          (get_players_ranking s db { m with players := B } false false) .delta with
      | none => exact hdb
      | some r1 =>
        obtain ⟨m2, p2⟩ := r1
        dsimp only
        cases hu2 : update_player_stats s env m2
            (get_players_ranking s db { m with players := B } true false)
            .season_delta with
        | none => exact hdb
        | some r2 =>
          obtain ⟨m3, p3⟩ := r2
          dsimp only
          cases hu3 : update_player_stats s env m3
              (get_players_ranking s db { m with players := B } false true)
              .combined_delta with
          | none => exact hdb
          | some r3 =>
            obtain ⟨m4, p4⟩ := r3
            dsimp only
            apply pendingFlagsOK_setPending id hdb
            dsimp only
            rw [all_rowFlagsOK_of_core_map (core_map_triple hu1 hu2 hu3)]
            exact hBall

theorem pendingFlagsOK_change_order (s : Settings) (env : TSEnv) (db : DB)
    (id : Nat) (new_order msg : String) (hdb : pendingFlagsOK db = true) :
    pendingFlagsOK (change_order s env db id new_order msg).2 = true := by
  unfold change_order
  cases hf : findPending db id with
  | none => exact hdb
  | some m =>
    dsimp only
    split
    · exact hdb
    · have hm : m.players.all rowFlagsOK = true := matchFlagsOK_of_findPending hdb hf
      cases hap : assignPlacements m.players (pySplitSpace new_order) with
      | none => exact hdb
      | some ps1 =>
        dsimp only
        cases hu1 : update_player_stats s env { m with players := ps1 }
            (get_players_ranking s db { m with players := ps1 } false false)
            .delta with
        | none => exact hdb
        | some r1 =>
          obtain ⟨m2, p2⟩ := r1
          dsimp only
          cases hu2 : update_player_stats s env m2
              (get_players_ranking s db { m with players := ps1 } true false)
              .season_delta with
          | none => exact hdb
          | some r2 =>
            obtain ⟨m3, p3⟩ := r2
            dsimp only
            cases hu3 : update_player_stats s env m3
                (get_players_ranking s db { m with players := ps1 } false true)
                .combined_delta with
            | none => exact hdb
            | some r3 =>
              obtain ⟨m4, p4⟩ := r3
              dsimp only
              apply pendingFlagsOK_setPending id hdb
              dsimp only
              exact all_rowFlagsOK_mergeOrderChanges m.players m4.players hm

theorem pendingFlagsOK_assign_discord_id (s : Settings) (env : TSEnv)
    (dir : Directory) (db : DB) (id : Nat) (pid : Int) (did msg : String)
    (hdb : pendingFlagsOK db = true) :
    pendingFlagsOK (assign_discord_id s env dir db id pid did msg).2 = true := by
  unfold assign_discord_id
  cases hf : findPending db id with
  | none => exact hdb
  | some m =>
    dsimp only
    split
    · exact hdb
    · have hm : m.players.all rowFlagsOK = true := matchFlagsOK_of_findPending hdb hf
      set idx := (pid - 1).toNat with hidx
      set ps1 := setIdx m.players idx
        (boundPlayer (m.players.getD idx dfltPlayer) did
          (dir.discord_to_steam did)) with hps1
      cases hu1 : update_player_stats s env { m with players := ps1 }
          (get_players_ranking s db { m with players := ps1 } false false)
          .delta with
      | none => exact hdb
      | some r1 =>
        obtain ⟨m2, p2⟩ := r1
        dsimp only
        cases hu2 : update_player_stats s env m2
            (get_players_ranking s db { m with players := ps1 } true false)
            .season_delta with
        | none => exact hdb
        | some r2 =>
          obtain ⟨m3, p3⟩ := r2
          dsimp only
          cases hu3 : update_player_stats s env m3
              (get_players_ranking s db { m with players := ps1 } false true)
              .combined_delta with
          | none => exact hdb
          | some r3 =>
            obtain ⟨m4, p4⟩ := r3
            dsimp only
            apply pendingFlagsOK_setPending id hdb
            dsimp only
            exact all_rowFlagsOK_mergeAssignChanges idx did
              (m4.players.getD idx dfltPlayer).steam_id m.players m4.players hm

theorem pendingFlagsOK_create_from_save (s : Settings) (env : TSEnv)
    (dir : Directory) (db : DB) (parsed : ParsedSave) (reporter : String)
    (is_cloud : Bool) (msgId : String) (hdb : pendingFlagsOK db = true) :
    pendingFlagsOK (create_from_save s env dir db parsed reporter is_cloud msgId).2
      = true := by
  unfold create_from_save
  dsimp only
  cases hfb : findByHash db (save_file_hash parsed) with
  | some im => exact hdb
  | none =>
    dsimp only
    set m1 := match_id_to_discord dir
      (build_match parsed reporter is_cloud msgId (save_file_hash parsed)) with hm1
    cases hu1 : update_player_stats s env m1
        (get_players_ranking s db m1 false false) .delta with
    | none => exact hdb
    | some r1 =>
      obtain ⟨m2, p2⟩ := r1
      dsimp only
      cases hu2 : update_player_stats s env m2
          (get_players_ranking s db m1 true false) .season_delta with
      | none => exact hdb
      | some r2 =>
        obtain ⟨m3, p3⟩ := r2
        dsimp only
        cases hu3 : update_player_stats s env m3
            (get_players_ranking s db m1 false true) .combined_delta with
        | none => exact hdb
        | some r3 =>
          obtain ⟨m4, p4⟩ := r3
          dsimp only
          have hm4 : m4.players.all rowFlagsOK = true := by
            rw [all_rowFlagsOK_of_core_map (core_map_triple hu1 hu2 hu3), hm1,
              all_rowFlagsOK_match_id_to_discord]
            exact all_rowFlagsOK_toPlayer parsed.players
          show (db.pending ++ [(db.nextId, m4)]).all
            (fun im => matchFlagsOK im.2) = true
          rw [List.all_append, Bool.and_eq_true]
          refine ⟨hdb, ?_⟩
          simp only [List.all_cons, List.all_nil, Bool.and_true]
          exact hm4

theorem pendingFlagsOK_applyMutOp (s : Settings) (env : TSEnv) (dir : Directory)
    (db : DB) (op : MutOp) (hdb : pendingFlagsOK db = true)
    (hsafe : mutOpSafe db op) :
    pendingFlagsOK (applyMutOp s env dir db op) = true := by
  cases op with
  | ingest p r c msg =>
    exact pendingFlagsOK_create_from_save s env dir db p r c msg hdb
  | reorder id o msg => exact pendingFlagsOK_change_order s env db id o msg hdb
  | toggleQuit id q msg => exact pendingFlagsOK_trigger_quit db id q msg hdb
  | bindIdentity id pid d msg =>
    exact pendingFlagsOK_assign_discord_id s env dir db id pid d msg hdb
  | insertSub id i d msg =>
    exact pendingFlagsOK_assign_sub s env dir db id i d msg hdb hsafe
  | removeSubOp id i msg => exact pendingFlagsOK_remove_sub s env db id i msg hdb
  | appendIds id msgs => exact pendingFlagsOK_append_ids db id msgs hdb

/-- Claim C10 counterexample: starting from the empty store, ingesting a
parsed save and then performing two legitimate insert-substitute calls —
the second targeting the substituted-out row created by the first, which
the source accepts — produces a stored pending match whose second row
has `is_sub = true` and `subbed_out = true` at once, so the claimed
invariant does not hold for every reachable state. -/
theorem sub_flags_both_set_reachable :
    pendingFlagsOK dbEmpty = true
    ∧ chainDb1 = applyMutOp sW idRate dirW dbEmpty
        (MutOp.ingest parsedW "rep" false "m0")
    ∧ chainDb2 = applyMutOp sW idRate dirW chainDb1 (MutOp.insertSub 5 0 "55" "m1")
    ∧ chainDb3 = applyMutOp sW idRate dirW chainDb2 (MutOp.insertSub 5 1 "66" "m2")
    ∧ (assign_sub sW idRate dirW chainDb1 5 0 "55" "m1").1.isOk = true
    ∧ (assign_sub sW idRate dirW chainDb2 5 1 "66" "m2").1.isOk = true
    ∧ ((findPending chainDb2 5).map
        fun m => (m.players.getD 1 dfltPlayer).subbed_out) = some true
    ∧ pendingFlagsOK chainDb3 = false
    ∧ ((findPending chainDb3 5).map
        fun m => m.players.map fun p => (p.is_sub, p.subbed_out))
      = some [(true, false), (true, true), (false, true), (false, false)] := by
  decide

/-- Claim C10 (corrected): every player row of every pending match has at
most one of `is_sub` and `subbed_out` set, in every database state
reachable by mutation operations (ingestion, reorder, toggle quit, bind
identity, insert substitute, remove substitute, append correlation ids)
from a state satisfying that invariant, provided each insert-substitute
call targets a slot not already marked substituted-out; the source does
not reject an insert-substitute aimed at a substituted-out row, and such
a call breaks the invariant. -/
theorem sub_flags_invariant (s : Settings) (env : TSEnv) (dir : Directory)
    (db db' : DB) (hdb : pendingFlagsOK db = true)
    (hr : ReachableBy s env dir db db') : pendingFlagsOK db' = true := by
  induction hr with
  | refl => exact hdb
  | step d2 op hprev hsafe ih =>
    exact pendingFlagsOK_applyMutOp s env dir d2 op ih hsafe

theorem sub_flags_invariant_witness :
    pendingFlagsOK db0 = true
    ∧ pendingFlagsOK
        (applyMutOp sW idRate dirW db0 (MutOp.appendIds 0 ["x"])) = true :=
  ⟨by decide,
    sub_flags_invariant sW idRate dirW db0 _ (by decide)
      (ReachableBy.step db0 db0 (MutOp.appendIds 0 ["x"])
        (ReachableBy.refl db0) trivial)⟩

end CoreApiBackend
